import Mathlib

/-!
Verification of the bulk content interchange subsystem of the quizHub
repository (services/api/app/services/bulk_import_service.py and
services/api/app/api/routes/admin.py), as a shallow embedding in Lean.

Python strings are modelled as lists of characters (`Str`).  The XML layer
is modelled at the element-tree level (`XmlElem`): serialisation to text and
re-parsing, including character escaping, is performed by the `xml.etree`
library in the source and is treated as the identity boundary between
structured documents.  A zip archive is an association list from path to
entry (or `badZip` for bytes that are not an archive).  SQLAlchemy sessions
are modelled as a pair of stores (persisted and pending); `add`/`delete`/
attribute updates act on the pending store, `commit` publishes it and
`rollback` discards it.
-/

namespace QuizHub

/-- Python strings, modelled as lists of characters. -/
abbrev Str := List Char

/-- Turn a Lean string literal into the `Str` model. -/
def S (s : String) : Str := s.data

/-- Python `str.lower()` (ASCII behaviour; all data reaching the core is ASCII). -/
def pyLower (s : Str) : Str := s.map Char.toLower

/-- Python `str.strip()` with no argument: trim surrounding whitespace. -/
def pyStrip (s : Str) : Str :=
  ((s.dropWhile Char.isWhitespace).reverse.dropWhile Char.isWhitespace).reverse

/-- A spreadsheet cell value produced by the Package Reader or consumed by the
Package Writer: a text run or a boolean.  An absent cell is `Option.none` at
the use sites (`CellV`). -/
inductive Cell where
  | s (v : Str)
  | b (v : Bool)
deriving DecidableEq, Repr

/-- A possibly-absent cell (`None` in the Python source). -/
abbrev CellV := Option Cell

/-- Python `str(value)` on a cell payload (`str` of a bool prints True/False). -/
def cellStr : Cell → Str
  | .s v => v
  | .b true => S "True"
  | .b false => S "False"

/-- `_normalize_str` from bulk_import_service.py: stringify, trim, and map
the empty result to `None`. -/
def _normalize_str (v : CellV) : Option Str :=
  match v with
  | none => none
  | some c =>
    let trimmed := pyStrip (cellStr c)
    if trimmed = [] then none else some trimmed

/-- `_normalize_header` from bulk_import_service.py: stringify, trim, lower. -/
def _normalize_header (v : CellV) : Str :=
  match v with
  | none => []
  | some c => pyLower (pyStrip (cellStr c))

/-- `_parse_bool` from bulk_import_service.py (the int/float branch is
unreachable for cells produced by the Package Reader, which yields only
strings and booleans). -/
def _parse_bool (v : CellV) (default : Bool) : Bool :=
  match v with
  | none => default
  | some (.b b) => b
  | some (.s s) =>
    let normalized := pyLower (pyStrip s)
    if [S "true", S "yes", S "y", S "1", S "active", S "publish"].contains normalized then
      true
    else if [S "false", S "no", S "n", S "0", S "inactive", S "draft"].contains normalized then
      false
    else default

/-- `_is_empty_row` from bulk_import_service.py. -/
def _is_empty_row (values : List CellV) : Bool :=
  values.all (fun v => (_normalize_str v).isNone)

/-- Split a character list at every occurrence of a separator character
(Python `str.split(sep)` semantics: `""` splits to `[""]`). -/
def splitOnChar (sep : Char) : Str → List Str
  | [] => [[]]
  | x :: xs =>
    match splitOnChar sep xs with
    | [] => [[]]
    | h :: t => if x = sep then [] :: h :: t else (x :: h) :: t

/-- `_split_list` from bulk_import_service.py: normalise the cell, replace
`;` and `|` separators by `,`, split, trim the parts and drop empties. -/
def _split_list (v : CellV) : List Str :=
  match _normalize_str v with
  | none => []
  | some text =>
    let unified := text.map (fun c => if c = ';' ∨ c = '|' then ',' else c)
    ((splitOnChar ',' unified).map pyStrip).filter (fun p => ¬ p = [])

/-- Python dict insertion: replace in place when the key exists, append
otherwise (insertion order is preserved, as for `dict` since Python 3.7). -/
def dictInsert {κ α : Type} [DecidableEq κ] (m : List (κ × α)) (k : κ) (v : α) :
    List (κ × α) :=
  if (m.map Prod.fst).contains k then
    m.map (fun p => if p.1 = k then (k, v) else p)
  else m ++ [(k, v)]

/-- Python `dict.get`. -/
def dictGet {κ α : Type} [DecidableEq κ] (m : List (κ × α)) (k : κ) : Option α :=
  (m.find? (fun p => p.1 = k)).map Prod.snd

/-- `_row_to_map` from bulk_import_service.py: pair each non-blank header with
the cell at its column (missing trailing cells read as `None`). -/
def _row_to_map (headers : List Str) (values : List CellV) : List (Str × CellV) :=
  (headers.enum).foldl
    (fun row (iv : Nat × Str) =>
      if iv.2 = [] then row
      else dictInsert row iv.2 (values.getD iv.1 none))
    []

/-- `_pick` from bulk_import_service.py: the value of the first alias present
in the row map (the stored value may itself be `None`). -/
def _pick (row : List (Str × CellV)) : List Str → CellV
  | [] => none
  | k :: rest =>
    match dictGet row k with
    | some v => v
    | none => _pick row rest

/-- `_extract_headers` from bulk_import_service.py. -/
def _extract_headers (rows : List (List CellV)) : List Str :=
  match rows with
  | [] => []
  | r0 :: _ => r0.map _normalize_header

/-- `_iter_rows` from bulk_import_service.py: data rows with their 1-based
spreadsheet row numbers (the header is row 1). -/
def _iter_rows (rows : List (List CellV)) : List (Nat × List CellV) :=
  (rows.drop 1).enumFrom 2

/-- `header.replace("option", "")`: remove every (non-overlapping, leftmost
first) occurrence of the literal `option`. -/
def replaceOption : Str → Str
  | 'o' :: 'p' :: 't' :: 'i' :: 'o' :: 'n' :: rest => replaceOption rest
  | c :: rest => c :: replaceOption rest
  | [] => []

/-- `_extract_options` from bulk_import_service.py: the header/value pairs of
the columns whose (normalised) header starts with `option` and whose cell
normalises to a non-empty string. -/
def _extract_options (headers : List Str) (values : List CellV) : List (Str × Str) :=
  (headers.enum).foldr
    (fun (iv : Nat × Str) acc =>
      if iv.2 = [] ∨ ¬ (S "option").isPrefixOf iv.2 then acc
      else
        match _normalize_str (values.getD iv.1 none) with
        | none => acc
        | some t => (iv.2, t) :: acc)
    []

/-- Decimal digits of a positive number, high digit first (empty for 0).
The extra `fuel` argument is a structural-termination device: the loop runs
at most `fuel` times, and `fuel = n` always suffices (`natDigitsAux_eq`). -/
def natDigitsAuxGo : Nat → Nat → Str
  | _, 0 => []
  | 0, _ + 1 => []
  | f + 1, n + 1 => natDigitsAuxGo f ((n + 1) / 10) ++ [Char.ofNat (48 + (n + 1) % 10)]

/-- Decimal digits of a positive number, high digit first (empty for 0). -/
def natDigitsAux (n : Nat) : Str := natDigitsAuxGo n n

theorem natDigitsAuxGo_fuel : ∀ (n f g : Nat), n ≤ f → n ≤ g →
    natDigitsAuxGo f n = natDigitsAuxGo g n := by
  intro n
  induction n using Nat.strong_induction_on with
  | _ n ih =>
    intro f g hf hg
    rcases n with _ | n
    · cases f <;> cases g <;> rfl
    · rcases f with _ | f
      · omega
      rcases g with _ | g
      · omega
      have hd : (n + 1) / 10 < n + 1 := Nat.div_lt_self (Nat.succ_pos n) (by omega)
      simp only [natDigitsAuxGo]
      rw [ih _ (by omega) f g (by omega) (by omega)]

/-- Unfolding equation for `natDigitsAux` on positive input. -/
theorem natDigitsAux_succ (n : Nat) :
    natDigitsAux (n + 1) = natDigitsAux ((n + 1) / 10) ++ [Char.ofNat (48 + (n + 1) % 10)] := by
  have hd : (n + 1) / 10 < n + 1 := Nat.div_lt_self (Nat.succ_pos n) (by omega)
  show natDigitsAuxGo (n + 1) (n + 1) = _
  simp only [natDigitsAuxGo]
  rw [natDigitsAuxGo_fuel ((n + 1) / 10) n ((n + 1) / 10) (by omega) (Nat.le_refl _)]
  rfl

/-- Python `str(n)` for a natural number. -/
def natDigits (n : Nat) : Str :=
  if n = 0 then S "0" else natDigitsAux n

/-- `_resolve_correct_index` inner loop: scan the option slots in order for
the first whose candidate set contains the normalised correct-option value. -/
def _resolve_correct_aux (normalized : Str) : List (Str × Str) → Nat → Option Nat
  | [], _ => none
  | (header, text) :: rest, idx =>
    let headerKey := pyStrip (replaceOption header)
    let candidates :=
      [pyLower text, pyLower header, pyLower headerKey, natDigits (idx + 1)] ++
        (if idx < 26 then [[Char.ofNat (97 + idx)]] else [])
    if candidates.contains normalized then some idx
    else _resolve_correct_aux normalized rest (idx + 1)

/-- `_resolve_correct_index` from bulk_import_service.py. -/
def _resolve_correct_index (option_pairs : List (Str × Str)) (correct_value : Option Str) :
    Option Nat :=
  match correct_value with
  | none => none
  | some cv => _resolve_correct_aux (pyLower cv) option_pairs 0

/-- A parsed question option (`ParsedQuestionOption` dataclass). -/
structure ParsedQuestionOption where
  text : Str
  is_correct : Bool
deriving DecidableEq, Repr

/-- `_resolve_options` from bulk_import_service.py. -/
def _resolve_options (option_pairs : List (Str × Str)) (correct_value : Option Str) :
    List ParsedQuestionOption :=
  let correct_index := _resolve_correct_index option_pairs correct_value
  (option_pairs.enum).map (fun (iv : Nat × (Str × Str)) =>
    { text := iv.2.2, is_correct := correct_index = some iv.1 })

/-- `_column_index` from bulk_import_service.py: keep the alphabetic run of a
cell reference and decode it as bijective base-26; a missing or letterless
reference defensively maps to column 1. -/
def _column_index (cell_ref : Option Str) : Nat :=
  match cell_ref with
  | none => 1
  | some ref =>
    if ref = [] then 1
    else
      let letters := ref.filter Char.isAlpha
      if letters = [] then 1
      else letters.foldl (fun acc c => acc * 26 + (c.toUpper.toNat - 65 + 1)) 0

/-- `_column_letter` loop with a structural-termination fuel argument (the
loop runs at most `fuel` times and `fuel = index` always suffices). -/
def _column_letter_go : Nat → Nat → Str
  | _, 0 => []
  | 0, _ + 1 => []
  | f + 1, n + 1 => _column_letter_go f (n / 26) ++ [Char.ofNat (65 + n % 26)]

/-- `_column_letter` from bulk_import_service.py: bijective base-26 encoding
of a 1-based column index (`divmod(index - 1, 26)` per iteration). -/
def _column_letter (index : Nat) : Str := _column_letter_go index index

theorem _column_letter_go_fuel : ∀ (n f g : Nat), n ≤ f → n ≤ g →
    _column_letter_go f n = _column_letter_go g n := by
  intro n
  induction n using Nat.strong_induction_on with
  | _ n ih =>
    intro f g hf hg
    rcases n with _ | n
    · cases f <;> cases g <;> rfl
    · rcases f with _ | f
      · omega
      rcases g with _ | g
      · omega
      have hd : n / 26 < n + 1 := Nat.lt_succ_of_le (Nat.div_le_self n 26)
      simp only [_column_letter_go]
      rw [ih _ (by omega) f g (by omega) (by omega)]

/-- Unfolding equation for `_column_letter` on positive input. -/
theorem _column_letter_succ (n : Nat) :
    _column_letter (n + 1) = _column_letter (n / 26) ++ [Char.ofNat (65 + n % 26)] := by
  show _column_letter_go (n + 1) (n + 1) = _
  simp only [_column_letter_go]
  rw [_column_letter_go_fuel (n / 26) n (n / 26) (Nat.div_le_self n 26) (Nat.le_refl _)]
  rfl

example : _column_letter 1 = S "A" := by decide
example : _column_letter 27 = S "AA" := by decide
example : _column_index (some (S "AB7")) = 28 := by decide
example : _split_list (some (.s (S "a, b; c|"))) = [S "a", S "b", S "c"] := by decide

/-- Every character of a column-letter encoding is `chr(65 + r)` for some
`r < 26`. -/
theorem _column_letter_chars : ∀ (n : Nat), ∀ c ∈ _column_letter n,
    ∃ r : Nat, r < 26 ∧ c = Char.ofNat (65 + r) := by
  intro n
  induction n using Nat.strong_induction_on with
  | _ n ih =>
    intro c hc
    rcases n with _ | n
    · simp [_column_letter, _column_letter_go] at hc
    · rw [_column_letter_succ] at hc
      rcases List.mem_append.mp hc with h | h
      · exact ih (n / 26) (Nat.lt_succ_of_le (Nat.div_le_self n 26)) c h
      · rcases List.mem_singleton.mp h with rfl
        exact ⟨n % 26, Nat.mod_lt n (by omega), rfl⟩

theorem upperLetter_isAlpha {r : Nat} (hr : r < 26) :
    (Char.ofNat (65 + r)).isAlpha = true := by
  interval_cases r <;> decide

theorem upperLetter_val {r : Nat} (hr : r < 26) :
    (Char.ofNat (65 + r)).toUpper.toNat = 65 + r := by
  interval_cases r <;> decide

/-- Decoding (the fold inside `_column_index`) inverts `_column_letter`. -/
theorem decode_column_letter : ∀ n : Nat,
    (_column_letter n).foldl (fun acc c => acc * 26 + (c.toUpper.toNat - 65 + 1)) 0 = n := by
  intro n
  induction n using Nat.strong_induction_on with
  | _ n ih =>
    rcases n with _ | n
    · rfl
    · rw [_column_letter_succ, List.foldl_append,
        ih (n / 26) (Nat.lt_succ_of_le (Nat.div_le_self n 26))]
      simp only [List.foldl_cons, List.foldl_nil]
      rw [upperLetter_val (Nat.mod_lt n (by omega))]
      omega

theorem _column_letter_ne_nil {n : Nat} (hn : 1 ≤ n) : _column_letter n ≠ [] := by
  rcases n with _ | n
  · omega
  · rw [_column_letter_succ]
    simp

/-- `slugify`'s character class `[a-z0-9]` (core/strings.py). -/
def isSlugChar (c : Char) : Bool :=
  decide (('a' ≤ c ∧ c ≤ 'z') ∨ ('0' ≤ c ∧ c ≤ '9'))

/-- `re.sub(r"[^a-z0-9]+", "-", ·)`: replace each maximal run of characters
outside `[a-z0-9]` with a single dash.  The flag records whether the scanner
is inside such a run. -/
def subRuns : Bool → Str → Str
  | _, [] => []
  | inRun, c :: rest =>
    if isSlugChar c then c :: subRuns false rest
    else if inRun then subRuns true rest
    else '-' :: subRuns true rest

/-- Python `str.strip("-")`. -/
def stripDash (s : Str) : Str :=
  ((s.dropWhile (fun c => c = '-')).reverse.dropWhile (fun c => c = '-')).reverse

/-- `slugify` from core/strings.py: lower-case, collapse non-alphanumeric
runs to dashes, strip surrounding dashes, defaulting to `subject`. -/
def slugify (value : Str) : Str :=
  let normalized := stripDash (subRuns false (pyLower value))
  if normalized = [] then S "subject" else normalized

example : slugify (S "General Knowledge") = S "general-knowledge" := by decide
example : slugify (S "???") = S "subject" := by decide

theorem subRuns_true_of_none {l : Str} (h : ∀ c ∈ l, isSlugChar c = false) :
    subRuns true l = [] := by
  induction l with
  | nil => rfl
  | cons c rest ih =>
    have hc := h c (List.mem_cons_self c rest)
    simp only [subRuns, hc]
    simp only [Bool.false_eq_true, if_false, if_true]
    exact ih (fun d hd => h d (List.mem_cons_of_mem c hd))

theorem slugify_of_no_alnum {s : Str}
    (h : ∀ c ∈ pyLower s, isSlugChar c = false) : slugify s = S "subject" := by
  unfold slugify
  cases hl : pyLower s with
  | nil => simp [hl, subRuns, stripDash]
  | cons c rest =>
    have hc : isSlugChar c = false := h c (hl ▸ List.mem_cons_self c rest)
    have hrest : subRuns true rest = [] :=
      subRuns_true_of_none (fun d hd => h d (hl ▸ List.mem_cons_of_mem c hd))
    simp [hl, subRuns, hc, hrest, stripDash, List.dropWhile]

theorem slugify_ne_nil (s : Str) : slugify s ≠ [] := by
  unfold slugify
  by_cases h : stripDash (subRuns false (pyLower s)) = []
  · simp [h, S]
  · simp [h]

/-- `ParsedCategory` dataclass from bulk_import_service.py. -/
structure ParsedCategory where
  source_row : Nat
  name : Str
  description : Option Str
  icon : Option Str
  errors : List Str
deriving DecidableEq, Repr

/-- `ParsedQuiz` dataclass from bulk_import_service.py. -/
structure ParsedQuiz where
  source_row : Nat
  title : Str
  description : Option Str
  is_active : Bool
  question_prompts : List Str
  errors : List Str
deriving DecidableEq, Repr

/-- `ParsedQuestion` dataclass from bulk_import_service.py. -/
structure ParsedQuestion where
  source_row : Nat
  prompt : Str
  explanation : Option Str
  subject : Option Str
  difficulty : Option Str
  is_active : Bool
  category_name : Str
  quiz_titles : List Str
  options : List ParsedQuestionOption
  errors : List Str
deriving DecidableEq, Repr

/-- `ParsedWorkbook` dataclass from bulk_import_service.py. -/
structure ParsedWorkbook where
  categories : List ParsedCategory
  quizzes : List ParsedQuiz
  questions : List ParsedQuestion
  warnings : List Str
deriving DecidableEq, Repr

/-- Row loop of `_parse_categories`. -/
def categoriesLoop (headers : List Str) : List (Nat × List CellV) → List ParsedCategory
  | [] => []
  | (row_idx, values) :: rest =>
    let row_map := _row_to_map headers values
    let name := _normalize_str (_pick row_map [S "name", S "category", S "category name"])
    let description := _normalize_str (_pick row_map [S "description", S "details", S "summary"])
    let icon := _normalize_str (_pick row_map [S "icon", S "emoji"])
    match name with
    | none =>
      if _is_empty_row values then categoriesLoop headers rest
      else
        { source_row := row_idx, name := [], description := none, icon := none,
          errors := [S "Category name is required."] } :: categoriesLoop headers rest
    | some nm =>
      { source_row := row_idx, name := nm, description := description, icon := icon,
        errors := [] } :: categoriesLoop headers rest

/-- `_parse_categories` from bulk_import_service.py. -/
def _parse_categories (rows : List (List CellV)) : List ParsedCategory :=
  categoriesLoop (_extract_headers rows) (_iter_rows rows)

/-- Row loop of `_parse_quizzes`. -/
def quizzesLoop (headers : List Str) : List (Nat × List CellV) → List ParsedQuiz
  | [] => []
  | (row_idx, values) :: rest =>
    let row_map := _row_to_map headers values
    let title := _normalize_str (_pick row_map [S "title", S "quiz", S "name"])
    let description := _normalize_str (_pick row_map [S "description", S "details"])
    let is_active := _parse_bool (_pick row_map [S "is active", S "active", S "status"]) true
    let question_raw := _pick row_map [S "questions", S "question prompts", S "prompt list"]
    let question_prompts := _split_list question_raw
    match title with
    | none =>
      if _is_empty_row values then quizzesLoop headers rest
      else
        { source_row := row_idx, title := [], description := none, is_active := is_active,
          question_prompts := [], errors := [S "Quiz title is required."] } ::
          quizzesLoop headers rest
    | some t =>
      { source_row := row_idx, title := t, description := description, is_active := is_active,
        question_prompts := question_prompts, errors := [] } :: quizzesLoop headers rest

/-- `_parse_quizzes` from bulk_import_service.py. -/
def _parse_quizzes (rows : List (List CellV)) : List ParsedQuiz :=
  quizzesLoop (_extract_headers rows) (_iter_rows rows)

/-- Row loop of `_parse_questions`, mirroring the source statement for
statement: the prompt error, the category error, and the option checks,
where the no-correct-option check sits on the `elif` branch of the
too-few-options check. -/
def questionsLoop (headers : List Str) : List (Nat × List CellV) → List ParsedQuestion
  | [] => []
  | (row_idx, values) :: rest =>
    let row_map := _row_to_map headers values
    let prompt := _normalize_str (_pick row_map [S "prompt", S "question", S "text"])
    let explanation := _normalize_str (_pick row_map [S "explanation", S "rationale", S "notes"])
    let subject := _normalize_str (_pick row_map [S "subject", S "topic"])
    let difficulty := _normalize_str (_pick row_map [S "difficulty", S "level"])
    let is_active := _parse_bool (_pick row_map [S "is active", S "active", S "status"]) true
    let category_name := _normalize_str (_pick row_map [S "category", S "category name"])
    let quiz_titles := _split_list (_pick row_map [S "quizzes", S "quiz titles", S "assign to quizzes"])
    let option_pairs := _extract_options headers values
    let correct_value := _normalize_str (_pick row_map [S "correct option", S "answer", S "correct"])
    let options := _resolve_options option_pairs correct_value
    if prompt.isNone ∧ _is_empty_row values then questionsLoop headers rest
    else
      let errors : List Str :=
        (if prompt.isNone then [S "Question prompt is required."] else []) ++
        (if category_name.isNone then [S "Category name is required for each question."] else []) ++
        (if options.length < 2 then [S "Provide at least two options."]
         else if ¬ options.any (fun o => o.is_correct) then [S "Select a correct option."]
         else [])
      { source_row := row_idx, prompt := prompt.getD [], explanation := explanation,
        subject := subject, difficulty := difficulty, is_active := is_active,
        category_name := category_name.getD [], quiz_titles := quiz_titles,
        options := options, errors := errors } :: questionsLoop headers rest

/-- `_parse_questions` from bulk_import_service.py. -/
def _parse_questions (rows : List (List CellV)) : List ParsedQuestion :=
  questionsLoop (_extract_headers rows) (_iter_rows rows)

/-- `_CATEGORY_SHEET_NAMES` (a Python set literal; modelled as a list in the
order written in the source — only membership and the candidate scan order
depend on it). -/
def _CATEGORY_SHEET_NAMES : List Str := [S "categories", S "category", S "category setup"]

/-- `_QUIZ_SHEET_NAMES` from bulk_import_service.py. -/
def _QUIZ_SHEET_NAMES : List Str := [S "quizzes", S "quiz", S "quiz setup"]

/-- `_QUESTION_SHEET_NAMES` from bulk_import_service.py. -/
def _QUESTION_SHEET_NAMES : List Str := [S "questions", S "question bank", S "items"]

/-- `_locate_sheet` from bulk_import_service.py: build the lower-cased name
index, then return the original name of the first expected alias present. -/
def _locate_sheet (sheet_names : List Str) (expected : List Str) : Option Str :=
  let normalized := sheet_names.foldl (fun m name => dictInsert m (pyLower name) name) []
  expected.findSome? (fun candidate => dictGet normalized (pyLower candidate))

example : _locate_sheet [S "Extra", S "CATEGORIES"] _CATEGORY_SHEET_NAMES
    = some (S "CATEGORIES") := by decide
example : _locate_sheet [S "Category-Setup"] _CATEGORY_SHEET_NAMES = none := by decide

/-- An XML element as exposed by `xml.etree.ElementTree`: tag, attributes,
text content and child elements.  Namespace prefixes are resolved uniformly
(the workbook relationship-id attribute is keyed `r:id`), and text escaping
is inverted by the XML library on both sides, so element text holds the raw
string. -/
inductive XmlElem where
  | mk (tag : Str) (attrs : List (Str × Str)) (text : Option Str) (children : List XmlElem)

/-- Tag of an element. -/
def XmlElem.tag : XmlElem → Str
  | .mk t _ _ _ => t

/-- Attributes of an element. -/
def XmlElem.attrs : XmlElem → List (Str × Str)
  | .mk _ a _ _ => a

/-- Text of an element. -/
def XmlElem.text : XmlElem → Option Str
  | .mk _ _ t _ => t

/-- Children of an element. -/
def XmlElem.children : XmlElem → List XmlElem
  | .mk _ _ _ c => c

/-- `element.attrib.get(key)`. -/
def xmlAttr (e : XmlElem) (k : Str) : Option Str := dictGet e.attrs k

/-- `element.find(tag)` restricted to direct children. -/
def findChild (e : XmlElem) (t : Str) : Option XmlElem :=
  e.children.find? (fun c => c.tag = t)

/-- `element.findtext(tag)`: text of the first matching child, `""` when the
child exists but has no text, `None` when there is no such child. -/
def findText (e : XmlElem) (t : Str) : Option Str :=
  (findChild e t).map (fun c => c.text.getD [])

/-- Texts of all `t` descendants of a list of elements (`.//main:t`). -/
def descTextsList : List XmlElem → List Str
  | [] => []
  | .mk tag _ text cs :: rest =>
    (if tag = S "t" then [text.getD []] else []) ++ descTextsList cs ++ descTextsList rest

/-- A zip archive entry: a part that parses as XML, or one that makes
`ET.fromstring` raise `ParseError`. -/
inductive Entry where
  | notXml
  | xml (doc : XmlElem)

/-- Uploaded bytes: either not a zip archive at all (`BadZipFile` on open) or
a listing of named parts. -/
inductive ZipData where
  | badZip
  | entries (files : List (Str × Entry))

/-- The Python exceptions that can escape the reader internals. -/
inductive PyErr where
  | badZipFile
  | keyError
  | parseError
  | fmtError (msg : Str)
deriving DecidableEq, Repr

/-- `ET.fromstring(archive.read(path))`: `KeyError` when the part is absent,
`ParseError` when it is not well-formed XML. -/
def readXml (fs : List (Str × Entry)) (path : Str) : Except PyErr XmlElem :=
  match dictGet fs path with
  | none => .error .keyError
  | some .notXml => .error .parseError
  | some (.xml doc) => .ok doc

/-- Decimal-digit parse (the core of Python `int(text)`; signs handled at
`parseIntOpt`, failure maps to `ValueError`). -/
def parseDigits : Str → Option Nat
  | [] => none
  | l =>
    if l.all (fun c => ('0' ≤ c ∧ c ≤ '9' : Bool)) then
      some (l.foldl (fun acc c => acc * 10 + (c.toNat - 48)) 0)
    else none

/-- Python `int(text)` returning `none` in place of `ValueError`. -/
def parseIntOpt : Str → Option Int
  | '-' :: rest => (parseDigits rest).map (fun n => -(n : Int))
  | s => (parseDigits s).map (fun n => (n : Int))

/-- `_parse_cell` from bulk_import_service.py: resolve a cell's value from
its declared type (shared string, boolean, inline string, raw fallback). -/
def _parse_cell (cell : XmlElem) (shared_strings : List Str) : CellV :=
  match xmlAttr cell (S "t") with
  | some ty =>
    if ty = S "s" then
      let index : Int :=
        match findText cell (S "v") with
        | none => 0
        | some t => (parseIntOpt t).getD 0
      if h : 0 ≤ index ∧ index.toNat < shared_strings.length then
        some (.s (shared_strings.get ⟨index.toNat, h.2⟩))
      else some (.s [])
    else if ty = S "b" then
      let value := findText cell (S "v")
      some (.b (value = some (S "1") ∨ value = some (S "true") ∨ value = some (S "TRUE")))
    else if ty = S "inlineStr" then
      some (.s (((cell.children.filter (fun c => c.tag = S "is")).flatMap
        (fun i => i.children.filter (fun c => c.tag = S "t"))).map
          (fun n => n.text.getD [])).flatten)
    else (findText cell (S "v")).map .s
  | none => (findText cell (S "v")).map .s

/-- One `<row>` of `_parse_sheet`: build the sparse column map, then read the
dense 1..max prefix back out (missing columns read as `None`). -/
def parseSheetRow (shared_strings : List Str) (row : XmlElem) : List CellV :=
  let cells := row.children.filter (fun c => c.tag = S "c")
  let step := cells.foldl
    (fun (st : List (Nat × CellV) × Nat) cell =>
      let column_index := _column_index (xmlAttr cell (S "r"))
      (dictInsert st.1 column_index (_parse_cell cell shared_strings), max st.2 column_index))
    ([], 0)
  if step.2 = 0 then []
  else (List.range' 1 step.2).map (fun i => (dictGet step.1 i).getD none)

/-- `_parse_sheet` from bulk_import_service.py.  A missing worksheet part
raises `BulkImportFormatError` directly; a malformed one raises
`ET.ParseError`. -/
def _parse_sheet (fs : List (Str × Entry)) (sheet_path : Str) (shared_strings : List Str) :
    Except PyErr (List (List CellV)) :=
  match dictGet fs sheet_path with
  | none =>
    .error (.fmtError (S "Worksheet \x27" ++ sheet_path ++ S "\x27 is missing from the workbook."))
  | some .notXml => .error .parseError
  | some (.xml tree) =>
    .ok ((((tree.children.filter (fun e => e.tag = S "sheetData")).flatMap
      (fun sd => sd.children.filter (fun r => r.tag = S "row"))).map
        (parseSheetRow shared_strings)))

/-- `_parse_shared_strings` from bulk_import_service.py: a missing part is an
empty table; a malformed one raises `ParseError`. -/
def _parse_shared_strings (fs : List (Str × Entry)) : Except PyErr (List Str) :=
  match dictGet fs (S "xl/sharedStrings.xml") with
  | none => .ok []
  | some .notXml => .error .parseError
  | some (.xml tree) =>
    .ok ((tree.children.filter (fun e => e.tag = S "si")).map
      (fun item => (descTextsList item.children).flatten))

/-- The ElementTree expanded name the reader queries for relationship
entries: `findall("rel:Relationship", {"rel": _NS["rel"]})` resolves the
`rel` prefix to the officeDocument/2006/relationships URI, so only elements
carrying this expanded name are matched. -/
def _REL_QUERY_TAG : Str :=
  S "\x7bhttp://schemas.openxmlformats.org/officeDocument/2006/relationships\x7dRelationship"

/-- The ElementTree expanded name of the `Relationship` children the writer
emits: `_build_workbook_relationships` and `_build_root_rels` declare
`xmlns="http://schemas.openxmlformats.org/package/2006/relationships"` as the
default namespace — a different URI from the one the reader queries, so the
reader never matches these elements. -/
def _REL_WRITTEN_TAG : Str :=
  S "\x7bhttp://schemas.openxmlformats.org/package/2006/relationships\x7dRelationship"

/-- The relationship dict comprehension in `_load_sheet_map`: `KeyError` when
an entry lacks `Id` or `Target`. -/
def buildRels (rels : List XmlElem) : Except PyErr (List (Str × Str)) :=
  rels.foldlM
    (fun m rel =>
      match xmlAttr rel (S "Id"), xmlAttr rel (S "Target") with
      | some i, some t => .ok (dictInsert m i t)
      | _, _ => .error .keyError)
    []

/-- The per-sheet loop of `_load_sheet_map`: resolve each declared sheet's
relationship target (silently skipping unresolvable or empty targets), parse
the part, and collect the grids keyed by display name. -/
def sheetsLoop (fs : List (Str × Entry)) (shared_strings : List Str)
    (relationships : List (Str × Str)) :
    List XmlElem → List (Str × List (List CellV)) →
      Except PyErr (List (Str × List (List CellV)))
  | [], acc => .ok acc
  | sheet :: rest, acc =>
    match xmlAttr sheet (S "name") with
    | none => .error .keyError
    | some name =>
      match xmlAttr sheet (S "r:id") with
      | none => .error .keyError
      | some rel_id =>
        match dictGet relationships rel_id with
        | none => sheetsLoop fs shared_strings relationships rest acc
        | some target =>
          if target = [] then sheetsLoop fs shared_strings relationships rest acc
          else
            let sheet_path :=
              if target.head? = some '/' then target.dropWhile (fun c => c = '/')
              else S "xl/" ++ target
            match _parse_sheet fs sheet_path shared_strings with
            | .error e => .error e
            | .ok sheet_rows =>
              sheetsLoop fs shared_strings relationships rest (dictInsert acc name sheet_rows)

/-- `_load_sheet_map` from bulk_import_service.py. -/
def _load_sheet_map (z : ZipData) : Except PyErr (List (Str × List (List CellV))) :=
  match z with
  | .badZip => .error .badZipFile
  | .entries fs => do
    let workbook_tree ← readXml fs (S "xl/workbook.xml")
    let rels_tree ← readXml fs (S "xl/_rels/workbook.xml.rels")
    let relationships ← buildRels (rels_tree.children.filter (fun e => e.tag = _REL_QUERY_TAG))
    let shared_strings ← _parse_shared_strings fs
    let sheetElems := (workbook_tree.children.filter (fun e => e.tag = S "sheets")).flatMap
      (fun ss => ss.children.filter (fun e => e.tag = S "sheet"))
    sheetsLoop fs shared_strings relationships sheetElems []

/-- `parse_workbook` from bulk_import_service.py: `BadZipFile`, `KeyError`
and `ET.ParseError` are converted to the generic `BulkImportFormatError`
message; the `BulkImportFormatError` raised inside `_parse_sheet` for a
missing worksheet part propagates with its own message.  The error channel
of the result is the `BulkImportFormatError` message. -/
def parse_workbook (z : ZipData) : Except Str ParsedWorkbook :=
  match _load_sheet_map z with
  | .error (.fmtError msg) => .error msg
  | .error _ => .error (S "Unable to read the Excel workbook. Upload a valid .xlsx file.")
  | .ok sheet_map =>
    let names := sheet_map.map Prod.fst
    let categories_sheet := _locate_sheet names _CATEGORY_SHEET_NAMES
    let quizzes_sheet := _locate_sheet names _QUIZ_SHEET_NAMES
    let questions_sheet := _locate_sheet names _QUESTION_SHEET_NAMES
    let warnings :=
      (if categories_sheet.isNone then
        [S "Categories sheet not found. Expected a sheet named \x27Categories\x27."] else []) ++
      (if quizzes_sheet.isNone then
        [S "Quizzes sheet not found. Expected a sheet named \x27Quizzes\x27."] else []) ++
      (if questions_sheet.isNone then
        [S "Questions sheet not found. Expected a sheet named \x27Questions\x27."] else [])
    .ok
      { categories :=
          (match categories_sheet with
           | some nm => _parse_categories ((dictGet sheet_map nm).getD [])
           | none => []),
        quizzes :=
          (match quizzes_sheet with
           | some nm => _parse_quizzes ((dictGet sheet_map nm).getD [])
           | none => []),
        questions :=
          (match questions_sheet with
           | some nm => _parse_questions ((dictGet sheet_map nm).getD [])
           | none => []),
        warnings := warnings }

/-- `_build_sheet_xml` from bulk_import_service.py, at the element level:
one `<row>` per input row carrying its 1-based reference, one `<c>` per cell
that is neither `None` nor the empty string, booleans with type `b` and
value 1/0, every other value as an inline string. -/
def _build_sheet_xml (rows : List (List CellV)) : XmlElem :=
  .mk (S "worksheet") [] none
    [.mk (S "sheetData") [] none
      ((rows.enumFrom 1).map (fun (ri : Nat × List CellV) =>
        .mk (S "row") [(S "r", natDigits ri.1)] none
          ((ri.2.enumFrom 1).filterMap (fun (ci : Nat × CellV) =>
            match ci.2 with
            | none => none
            | some (.s []) => none
            | some (.b b) =>
              some (.mk (S "c")
                [(S "r", _column_letter ci.1 ++ natDigits ri.1), (S "t", S "b")] none
                [.mk (S "v") [] (some (if b then S "1" else S "0")) []])
            | some (.s v) =>
              some (.mk (S "c")
                [(S "r", _column_letter ci.1 ++ natDigits ri.1), (S "t", S "inlineStr")] none
                [.mk (S "is") [] none [.mk (S "t") [] (some v) []]])))))]

/-- `_build_workbook_xml` from bulk_import_service.py. -/
def _build_workbook_xml (sheet_entries : List (Nat × Str)) : XmlElem :=
  .mk (S "workbook") [] none
    [.mk (S "sheets") [] none
      (sheet_entries.map (fun (e : Nat × Str) =>
        .mk (S "sheet")
          [(S "name", e.2), (S "sheetId", natDigits e.1), (S "r:id", S "rId" ++ natDigits e.1)]
          none []))]

/-- `_build_workbook_relationships` from bulk_import_service.py. -/
def _build_workbook_relationships (sheet_count : Nat) : XmlElem :=
  .mk (S "Relationships") [] none
    ((List.range' 1 sheet_count).map (fun i =>
      .mk _REL_WRITTEN_TAG
        [(S "Id", S "rId" ++ natDigits i),
         (S "Type", S "http://schemas.openxmlformats.org/officeDocument/2006/relationships/worksheet"),
         (S "Target", S "worksheets/sheet" ++ natDigits i ++ S ".xml")]
        none []))

/-- `_build_root_rels` from bulk_import_service.py. -/
def _build_root_rels : XmlElem :=
  .mk (S "Relationships") [] none
    [.mk _REL_WRITTEN_TAG
      [(S "Id", S "rId1"),
       (S "Type", S "http://schemas.openxmlformats.org/officeDocument/2006/relationships/officeDocument"),
       (S "Target", S "xl/workbook.xml")]
      none []]

/-- `_build_content_types` from bulk_import_service.py. -/
def _build_content_types (sheet_count : Nat) : XmlElem :=
  .mk (S "Types") [] none
    ([.mk (S "Default")
        [(S "Extension", S "rels"),
         (S "ContentType", S "application/vnd.openxmlformats-package.relationships+xml")] none [],
      .mk (S "Default")
        [(S "Extension", S "xml"), (S "ContentType", S "application/xml")] none []] ++
      (List.range' 1 sheet_count).map (fun i =>
        .mk (S "Override")
          [(S "PartName", S "/xl/worksheets/sheet" ++ natDigits i ++ S ".xml"),
           (S "ContentType",
            S "application/vnd.openxmlformats-officedocument.spreadsheetml.worksheet+xml")]
          none []))

/-- `_write_workbook` from bulk_import_service.py: the archive parts in the
order they are written. -/
def _write_workbook (sheets : List (Str × List (List CellV))) : ZipData :=
  .entries
    ([(S "[Content_Types].xml", .xml (_build_content_types sheets.length)),
      (S "_rels/.rels", .xml _build_root_rels)] ++
      (sheets.enumFrom 1).map (fun e =>
        (S "xl/worksheets/sheet" ++ natDigits e.1 ++ S ".xml", .xml (_build_sheet_xml e.2.2))) ++
      [(S "xl/workbook.xml",
        .xml (_build_workbook_xml ((sheets.enumFrom 1).map (fun e => (e.1, e.2.1))))),
       (S "xl/_rels/workbook.xml.rels",
        .xml (_build_workbook_relationships sheets.length))])

instance {e a : Type} [DecidableEq e] [DecidableEq a] : DecidableEq (Except e a) := fun x y =>
  match x, y with
  | .ok u, .ok v =>
    match decEq u v with
    | isTrue h => isTrue (h ▸ rfl)
    | isFalse h => isFalse (fun hh => h (Except.ok.inj hh))
  | .ok _, .error _ => isFalse (fun hh => Except.noConfusion hh)
  | .error _, .ok _ => isFalse (fun hh => Except.noConfusion hh)
  | .error u, .error v =>
    match decEq u v with
    | isTrue h => isTrue (h ▸ rfl)
    | isFalse h => isFalse (fun hh => h (Except.error.inj hh))

example :
    _load_sheet_map (_write_workbook
      [(S "Categories", [[some (.s (S "Name"))], [some (.s (S "General")), some (.b true)]])])
    = .ok [] := by
  decide

/-! ## The persisted content store and the SQLAlchemy session

Rows carry the surrogate ids the database would assign; `Store.nextId` is
the id sequence.  A `Session` is a persisted snapshot plus the pending
in-transaction state: `add`/`delete`/attribute assignment act on `pending`,
`commit` publishes `pending`, `rollback` discards it.  `db.flush` only
assigns ids, which the model does at `add` time, so it is a no-op here. -/

/-- Tenant scope: an organization id, or the global (no-organization) scope. -/
abbrev Scope := Option Nat

/-- A `Category` row (models/category.py). -/
structure Category where
  id : Nat
  name : Str
  slug : Str
  description : Option Str
  icon : Option Str
  organization_id : Scope
deriving DecidableEq, Repr

/-- A `Question` row (models/question.py). -/
structure Question where
  id : Nat
  prompt : Str
  explanation : Option Str
  subject : Option Str
  difficulty : Option Str
  is_active : Bool
  category_id : Nat
  organization_id : Scope
deriving DecidableEq, Repr

/-- An `Option` row (models/question.py); its own surrogate id is never read
by the import subsystem and is omitted. -/
structure OptionRow where
  question_id : Nat
  text : Str
  is_correct : Bool
deriving DecidableEq, Repr

/-- A `Quiz` row (models/quiz.py). -/
structure Quiz where
  id : Nat
  title : Str
  description : Option Str
  is_active : Bool
  organization_id : Scope
deriving DecidableEq, Repr

/-- A `QuizQuestion` link row (models/question.py). -/
structure QuizQuestion where
  quiz_id : Nat
  question_id : Nat
  position : Nat
deriving DecidableEq, Repr

/-- The persisted content store visible to the import subsystem. -/
structure Store where
  categories : List Category
  questions : List Question
  options : List OptionRow
  quizzes : List Quiz
  quiz_questions : List QuizQuestion
  nextId : Nat
deriving DecidableEq, Repr

/-- A SQLAlchemy session: the persisted state plus the pending transaction
state. -/
structure Session where
  persisted : Store
  pending : Store
deriving DecidableEq, Repr

/-- A fresh request session over a persisted store. -/
def Session.start (st : Store) : Session := ⟨st, st⟩

/-- `db.commit()`. -/
def Session.commit (s : Session) : Session := ⟨s.pending, s.pending⟩

/-- `db.rollback()`. -/
def Session.rollback (s : Session) : Session := ⟨s.persisted, s.persisted⟩

/-- `db.add(Category(...))` followed by `db.flush()`: assign the next id,
append the row, and return it. -/
def Store.addCategory (st : Store) (mk : Nat → Category) : Store × Category :=
  ({ st with categories := st.categories ++ [mk st.nextId], nextId := st.nextId + 1 },
    mk st.nextId)

/-- `db.add(Question(...))` followed by `db.flush()`. -/
def Store.addQuestion (st : Store) (mk : Nat → Question) : Store × Question :=
  ({ st with questions := st.questions ++ [mk st.nextId], nextId := st.nextId + 1 },
    mk st.nextId)

/-- `db.add(Quiz(...))` followed by `db.flush()`. -/
def Store.addQuiz (st : Store) (mk : Nat → Quiz) : Store × Quiz :=
  ({ st with quizzes := st.quizzes ++ [mk st.nextId], nextId := st.nextId + 1 },
    mk st.nextId)

/-- `db.add(Option(...))`. -/
def Store.addOption (st : Store) (o : OptionRow) : Store :=
  { st with options := st.options ++ [o] }

/-- `db.add(QuizQuestion(...))`. -/
def Store.addQuizQuestion (st : Store) (q : QuizQuestion) : Store :=
  { st with quiz_questions := st.quiz_questions ++ [q] }

/-- Attribute assignment on an ORM `Question` object. -/
def Store.updateQuestion (st : Store) (qid : Nat) (f : Question → Question) : Store :=
  { st with questions := st.questions.map (fun q => if q.id = qid then f q else q) }

/-- Attribute assignment on an ORM `Category` object. -/
def Store.updateCategory (st : Store) (cid : Nat) (f : Category → Category) : Store :=
  { st with categories := st.categories.map (fun c => if c.id = cid then f c else c) }

/-- Attribute assignment on an ORM `Quiz` object. -/
def Store.updateQuiz (st : Store) (qid : Nat) (f : Quiz → Quiz) : Store :=
  { st with quizzes := st.quizzes.map (fun q => if q.id = qid then f q else q) }

/-- `db.query(Option).filter(Option.question_id == qid).delete(...)`. -/
def Store.deleteOptionsOf (st : Store) (qid : Nat) : Store :=
  { st with options := st.options.filter (fun o => ¬ o.question_id = qid) }

/-- `db.query(QuizQuestion).filter(QuizQuestion.quiz_id == qid).delete(...)`. -/
def Store.deleteQuizQuestionsOf (st : Store) (qid : Nat) : Store :=
  { st with quiz_questions := st.quiz_questions.filter (fun l => ¬ l.quiz_id = qid) }

/-- `_fetch_category_map` from admin.py: slug-keyed map of the scope's
category rows (a pure SELECT over the session's visible state). -/
def _fetch_category_map (s : Session) (organization_id : Scope) : List (Str × Category) :=
  (s.pending.categories.filter (fun c => c.organization_id = organization_id)).foldl
    (fun m c => dictInsert m c.slug c) []

/-- `_fetch_quiz_map` from admin.py. -/
def _fetch_quiz_map (s : Session) (organization_id : Scope) : List (Str × Quiz) :=
  (s.pending.quizzes.filter (fun q => q.organization_id = organization_id)).foldl
    (fun m q => dictInsert m (pyLower (pyStrip q.title)) q) []

/-- `_fetch_question_map` from admin.py (the optional `prompts` filter is
applied only when the normalised prompt set is non-empty). -/
def _fetch_question_map (s : Session) (organization_id : Scope)
    (prompts : Option (List Str)) : List (Str × Question) :=
  let rows := s.pending.questions
  let rows :=
    match prompts with
    | none => rows
    | some ps =>
      if ps = [] then rows
      else
        let normalized_prompts := (ps.map pyStrip).filter (fun p => ¬ p = [])
        if normalized_prompts = [] then rows
        else rows.filter (fun q => normalized_prompts.contains q.prompt)
  (rows.filter (fun q => q.organization_id = organization_id)).foldl
    (fun m q => dictInsert m (pyLower (pyStrip q.prompt)) q) []

/-! ## The preview (reconciliation) engine -/

/-- `BulkCategoryPreview` response record (schemas/bulk_import.py); `action`
is the literal `create` or `update`. -/
structure BulkCategoryPreview where
  source_row : Option Nat
  name : Str
  description : Option Str
  icon : Option Str
  slug : Str
  action : Str
  errors : List Str
deriving DecidableEq, Repr

/-- `BulkQuizPreview` response record. -/
structure BulkQuizPreview where
  source_row : Option Nat
  title : Str
  description : Option Str
  is_active : Bool
  question_prompts : List Str
  action : Str
  errors : List Str
deriving DecidableEq, Repr

/-- `BulkQuestionOption` (schemas/bulk_import.py). -/
structure BulkQuestionOption where
  text : Str
  is_correct : Bool
deriving DecidableEq, Repr

/-- `BulkQuestionPreview` response record. -/
structure BulkQuestionPreview where
  source_row : Option Nat
  prompt : Str
  explanation : Option Str
  subject : Option Str
  difficulty : Option Str
  is_active : Bool
  category_name : Str
  quiz_titles : List Str
  options : List BulkQuestionOption
  action : Str
  errors : List Str
deriving DecidableEq, Repr

/-- `BulkImportPreview` response payload. -/
structure BulkImportPreviewOut where
  categories : List BulkCategoryPreview
  quizzes : List BulkQuizPreview
  questions : List BulkQuestionPreview
  warnings : List Str
deriving DecidableEq, Repr

/-- The category loop of `preview_bulk_import` (admin.py lines 479-500),
threading the in-upload duplicate counter. -/
def previewCategoriesLoop (existing_categories : List (Str × Category)) :
    List ParsedCategory → List (Str × Nat) → List BulkCategoryPreview
  | [], _ => []
  | category :: rest, counts =>
    let slug := if category.name = [] then [] else slugify category.name
    let errors0 := category.errors
    let stepped :=
      if ¬ slug = [] then
        let c := (dictGet counts slug).getD 0 + 1
        (errors0 ++ (if c > 1 then [S "Duplicate category name in the workbook."] else []),
          dictInsert counts slug c)
      else
        ((if errors0 = [] then errors0 ++ [S "Category name is required."] else errors0), counts)
    let existing := if ¬ slug = [] then dictGet existing_categories slug else none
    { source_row := some category.source_row, name := category.name,
      description := category.description, icon := category.icon, slug := slug,
      action := if existing.isSome then S "update" else S "create",
      errors := stepped.1 } :: previewCategoriesLoop existing_categories rest stepped.2

/-- The quiz loop of `preview_bulk_import` (admin.py lines 516-546). -/
def previewQuizzesLoop (target_org_id : Scope) (existing_quizzes : List (Str × Quiz))
    (available_prompt_keys : List Str) :
    List ParsedQuiz → List (Str × Nat) → List BulkQuizPreview
  | [], _ => []
  | quiz :: rest, counts =>
    let title := if quiz.title = [] then [] else pyStrip quiz.title
    let title_key := pyLower title
    let errors0 := quiz.errors
    let stepped :=
      if ¬ title_key = [] then
        let c := (dictGet counts title_key).getD 0 + 1
        (errors0 ++ (if c > 1 then [S "Duplicate quiz title in the workbook."] else []),
          dictInsert counts title_key c)
      else (errors0 ++ [S "Quiz title is required."], counts)
    let existing := if ¬ title_key = [] then dictGet existing_quizzes title_key else none
    let errors1 := stepped.1 ++
      (match existing with
       | some q =>
         if ¬ (target_org_id = q.organization_id ∨ target_org_id = none) then
           [S "Quiz belongs to another organization."]
         else []
       | none => [])
    let errors2 := errors1 ++
      quiz.question_prompts.filterMap (fun prompt =>
        let prompt_key := pyLower (pyStrip prompt)
        if ¬ prompt_key = [] ∧ ¬ available_prompt_keys.contains prompt_key then
          some (S "Question \x27" ++ prompt ++ S "\x27 is not defined in this import or library.")
        else none)
    { source_row := some quiz.source_row, title := quiz.title,
      description := quiz.description, is_active := quiz.is_active,
      question_prompts := quiz.question_prompts,
      action := if existing.isSome then S "update" else S "create",
      errors := errors2 } :: previewQuizzesLoop target_org_id existing_quizzes
        available_prompt_keys rest stepped.2

/-- The question loop of `preview_bulk_import` (admin.py lines 557-600). -/
def previewQuestionsLoop (target_org_id : Scope) (existing_questions : List (Str × Question))
    (valid_category_slugs : List Str) (quiz_titles_in_sheet : List Str) :
    List ParsedQuestion → List (Str × Nat) → List BulkQuestionPreview
  | [], _ => []
  | question :: rest, counts =>
    let prompt := if question.prompt = [] then [] else pyStrip question.prompt
    let prompt_key := pyLower prompt
    let errors0 := question.errors
    let stepped :=
      if ¬ prompt_key = [] then
        let c := (dictGet counts prompt_key).getD 0 + 1
        (errors0 ++ (if c > 1 then [S "Duplicate question prompt in the workbook."] else []),
          dictInsert counts prompt_key c)
      else (errors0 ++ [S "Question prompt is required."], counts)
    let category_slug := if question.category_name = [] then [] else slugify question.category_name
    let errors1 := stepped.1 ++
      (if ¬ valid_category_slugs.contains category_slug then
        [S "Category \x27" ++
          (if question.category_name = [] then S "Unknown" else question.category_name) ++
          S "\x27 is not defined in the Categories sheet or existing library."]
       else [])
    let errors2 := errors1 ++
      question.quiz_titles.filterMap (fun title =>
        let title_key := pyLower (pyStrip title)
        if ¬ title_key = [] ∧ ¬ quiz_titles_in_sheet.contains title_key then
          some (S "Quiz \x27" ++ title ++ S "\x27 is not defined in the Quizzes sheet or existing library.")
        else none)
    let existing := if ¬ prompt_key = [] then dictGet existing_questions prompt_key else none
    let errors3 := errors2 ++
      (match existing with
       | some q =>
         if ¬ (target_org_id = q.organization_id ∨ target_org_id = none) then
           [S "Question belongs to another organization."]
         else []
       | none => [])
    { source_row := some question.source_row, prompt := question.prompt,
      explanation := question.explanation, subject := question.subject,
      difficulty := question.difficulty, is_active := question.is_active,
      category_name := question.category_name, quiz_titles := question.quiz_titles,
      options := question.options.map (fun o => ⟨o.text, o.is_correct⟩),
      action := if existing.isSome then S "update" else S "create",
      errors := errors3 } :: previewQuestionsLoop target_org_id existing_questions
        valid_category_slugs quiz_titles_in_sheet rest stepped.2

/-- `preview_bulk_import` from admin.py (the reconciliation pipeline after
upload validation): parse the workbook, fetch the three scope-filtered
natural-key maps with read-only SELECTs, and classify every record.  The
session is returned alongside the response; the source route performs no
mutating session operation, which the embedding mirrors. -/
def preview_bulk_import (z : ZipData) (target_org_id : Scope) (s : Session) :
    Except Str BulkImportPreviewOut × Session :=
  match parse_workbook z with
  | .error msg => (.error msg, s)
  | .ok parsed =>
    let existing_categories := _fetch_category_map s target_org_id
    let existing_quizzes := _fetch_quiz_map s target_org_id
    let existing_questions := _fetch_question_map s target_org_id none
    let categories_preview := previewCategoriesLoop existing_categories parsed.categories []
    let valid_category_slugs :=
      (categories_preview.filter (fun i => ¬ i.slug = [] ∧ i.errors = [])).map (fun i => i.slug) ++
        existing_categories.map Prod.fst
    let available_prompt_keys :=
      (parsed.questions.filter (fun q => ¬ pyStrip q.prompt = [])).map
        (fun q => pyLower (pyStrip q.prompt)) ++ existing_questions.map Prod.fst
    let quizzes_preview :=
      previewQuizzesLoop target_org_id existing_quizzes available_prompt_keys parsed.quizzes []
    let quiz_titles_in_sheet :=
      (parsed.quizzes.filter (fun q => ¬ pyStrip q.title = [])).map
        (fun q => pyLower (pyStrip q.title)) ++ existing_quizzes.map Prod.fst
    let questions_preview :=
      previewQuestionsLoop target_org_id existing_questions valid_category_slugs
        quiz_titles_in_sheet parsed.questions []
    (.ok { categories := categories_preview, quizzes := quizzes_preview,
           questions := questions_preview, warnings := parsed.warnings }, s)

/-! ## The commit engine -/

/-- `BulkCategoryPayload` (schemas/bulk_import.py). -/
structure BulkCategoryPayload where
  name : Str
  description : Option Str
  icon : Option Str
deriving DecidableEq, Repr

/-- `BulkQuizPayload` (schemas/bulk_import.py). -/
structure BulkQuizPayload where
  title : Str
  description : Option Str
  is_active : Bool
  question_prompts : List Str
deriving DecidableEq, Repr

/-- `BulkQuestionPayload` (schemas/bulk_import.py). -/
structure BulkQuestionPayload where
  prompt : Str
  explanation : Option Str
  subject : Option Str
  difficulty : Option Str
  is_active : Bool
  category_name : Str
  quiz_titles : List Str
  options : List BulkQuestionOption
deriving DecidableEq, Repr

/-- `BulkImportCommit` (schemas/bulk_import.py). -/
structure BulkImportCommit where
  categories : List BulkCategoryPayload
  quizzes : List BulkQuizPayload
  questions : List BulkQuestionPayload
deriving DecidableEq, Repr

/-- `BulkImportResult` (schemas/bulk_import.py). -/
structure BulkImportResult where
  categories_created : Nat
  categories_updated : Nat
  quizzes_created : Nat
  quizzes_updated : Nat
  questions_created : Nat
  questions_updated : Nat
deriving DecidableEq, Repr

/-- `_normalize_optional` from admin.py. -/
def _normalize_optional (v : Option Str) : Option Str :=
  match v with
  | none => none
  | some s =>
    let trimmed := pyStrip s
    if trimmed = [] then none else some trimmed

/-- The loop of `_ensure_unique_categories` with its accumulated seen set. -/
def ensureUniqueCategoriesLoop (seen : List Str) : List BulkCategoryPayload → Except Str Unit
  | [] => .ok ()
  | category :: rest =>
    let name := pyStrip category.name
    if name = [] then .error (S "Category name cannot be empty.")
    else
      let slug := slugify name
      if seen.contains slug then
        .error (S "Duplicate category name \x27" ++ category.name ++ S "\x27 in payload.")
      else ensureUniqueCategoriesLoop (slug :: seen) rest

/-- `_ensure_unique_categories` from admin.py. -/
def _ensure_unique_categories (categories : List BulkCategoryPayload) : Except Str Unit :=
  ensureUniqueCategoriesLoop [] categories

/-- The loop of `_ensure_valid_questions`. -/
def ensureValidQuestionsLoop (seen : List Str) : List BulkQuestionPayload → Except Str Unit
  | [] => .ok ()
  | question :: rest =>
    let prompt := pyStrip question.prompt
    if prompt = [] then .error (S "Question prompt cannot be empty.")
    else
      let key := pyLower prompt
      if seen.contains key then
        .error (S "Duplicate question prompt \x27" ++ question.prompt ++ S "\x27 in payload.")
      else if question.options.length < 2 then
        .error (S "Question \x27" ++ question.prompt ++ S "\x27 requires at least two options.")
      else if ¬ question.options.any (fun o => o.is_correct) then
        .error (S "Question \x27" ++ question.prompt ++ S "\x27 requires a correct option.")
      else ensureValidQuestionsLoop (key :: seen) rest

/-- `_ensure_valid_questions` from admin.py. -/
def _ensure_valid_questions (questions : List BulkQuestionPayload) : Except Str Unit :=
  ensureValidQuestionsLoop [] questions

/-- The loop of `_ensure_unique_quizzes`. -/
def ensureUniqueQuizzesLoop (seen : List Str) : List BulkQuizPayload → Except Str Unit
  | [] => .ok ()
  | quiz :: rest =>
    let title := pyStrip quiz.title
    if title = [] then .error (S "Quiz title cannot be empty.")
    else
      let key := pyLower title
      if seen.contains key then
        .error (S "Duplicate quiz title \x27" ++ quiz.title ++ S "\x27 in payload.")
      else ensureUniqueQuizzesLoop (key :: seen) rest

/-- `_ensure_unique_quizzes` from admin.py. -/
def _ensure_unique_quizzes (quizzes : List BulkQuizPayload) : Except Str Unit :=
  ensureUniqueQuizzesLoop [] quizzes

/-- `_collect_quiz_prompts` from admin.py: for each trimmed, lower-cased quiz
title named by a payload question, the prompts of the questions naming it,
in payload order (with multiplicity, as `setdefault(...).append` produces). -/
def _collect_quiz_prompts (payload : BulkImportCommit) : List (Str × List Str) :=
  payload.questions.foldl
    (fun m question =>
      question.quiz_titles.foldl
        (fun m title =>
          let trimmed := pyStrip title
          if trimmed = [] then m
          else
            let key := pyLower trimmed
            dictInsert m key ((dictGet m key).getD [] ++ [question.prompt]))
        m)
    []

/-- The loop of `_dedupe_preserve_order` with its seen-key set. -/
def dedupeGo (seen : List Str) : List Str → List Str
  | [] => []
  | item :: rest =>
    let trimmed := pyStrip item
    let key := pyLower trimmed
    if trimmed = [] ∨ seen.contains key then dedupeGo seen rest
    else trimmed :: dedupeGo (key :: seen) rest

/-- `_dedupe_preserve_order` from admin.py. -/
def _dedupe_preserve_order (items : List Str) : List Str := dedupeGo [] items

example : _dedupe_preserve_order [S " A ", S "b", S "a", S "", S "B "] = [S "A", S "b"] := by
  decide

/-- The pre-transaction referential check of `commit_bulk_import` (admin.py
lines 633-641): every quiz title referenced by a payload question must be
defined in the payload or already persisted in scope. -/
def checkQuizRefs (quiz_titles_defined : List Str) (existing_quizzes : List (Str × Quiz)) :
    List BulkQuestionPayload → Except Str Unit
  | [] => .ok ()
  | question :: rest =>
    let rec titlesLoop : List Str → Except Str Unit
      | [] => .ok ()
      | title :: more =>
        let title_key := pyLower (pyStrip title)
        if ¬ title_key = [] ∧ ¬ quiz_titles_defined.contains title_key ∧
            (dictGet existing_quizzes title_key).isNone then
          .error (S "Question \x27" ++ question.prompt ++ S "\x27 references quiz \x27" ++
            title ++ S "\x27 that is not defined.")
        else titlesLoop more
    match titlesLoop question.quiz_titles with
    | .error e => .error e
    | .ok _ => checkQuizRefs quiz_titles_defined existing_quizzes rest

/-- The category phase of `commit_bulk_import` (admin.py lines 663-686):
upsert each payload category by slug, growing the id-carrying lookup. -/
def commitCategoriesLoop (target : Scope) :
    List BulkCategoryPayload → Store → List (Str × Category) → BulkImportResult →
      Store × List (Str × Category) × BulkImportResult
  | [], st, category_lookup, result => (st, category_lookup, result)
  | category :: rest, st, category_lookup, result =>
    let slug := slugify category.name
    let description := _normalize_optional category.description
    let icon := _normalize_optional category.icon
    match dictGet category_lookup slug with
    | some existing =>
      let st := st.updateCategory existing.id (fun c =>
        { c with
          name := pyStrip category.name,
          description := description,
          icon := icon,
          organization_id := target })
      commitCategoriesLoop target rest st category_lookup
        { result with categories_updated := result.categories_updated + 1 }
    | none =>
      let added := st.addCategory (fun i =>
        { id := i, name := pyStrip category.name, slug := slug, description := description,
          icon := icon, organization_id := target })
      commitCategoriesLoop target rest added.1 (dictInsert category_lookup slug added.2)
        { result with categories_created := result.categories_created + 1 }

/-- The question phase of `commit_bulk_import` (admin.py lines 689-748):
upsert each payload question by prompt key; on update the option set is
fully replaced (delete-all-then-insert). -/
def commitQuestionsLoop (target : Scope) (category_lookup : List (Str × Category)) :
    List BulkQuestionPayload → Store → List (Str × Question) → BulkImportResult →
      Except Str (Store × List (Str × Question) × BulkImportResult)
  | [], st, question_lookup, result => .ok (st, question_lookup, result)
  | question :: rest, st, question_lookup, result =>
    let prompt := pyStrip question.prompt
    let prompt_key := pyLower prompt
    let category_slug := slugify question.category_name
    match dictGet category_lookup category_slug with
    | none =>
      .error (S "Category \x27" ++ question.category_name ++ S "\x27 is not available.")
    | some category =>
      let explanation := _normalize_optional question.explanation
      let subject := _normalize_optional question.subject
      let difficulty := _normalize_optional question.difficulty
      match dictGet question_lookup prompt_key with
      | none =>
        let added := st.addQuestion (fun i =>
          { id := i, prompt := prompt, explanation := explanation, subject := subject,
            difficulty := difficulty, is_active := question.is_active,
            category_id := category.id, organization_id := target })
        let st := question.options.foldl
          (fun st o => st.addOption ⟨added.2.id, pyStrip o.text, o.is_correct⟩) added.1
        commitQuestionsLoop target category_lookup rest st
          (dictInsert question_lookup prompt_key added.2)
          { result with questions_created := result.questions_created + 1 }
      | some existing_question =>
        let updated : Question :=
          { existing_question with
            prompt := prompt,
            explanation := explanation,
            subject := subject,
            difficulty := difficulty,
            is_active := question.is_active,
            category_id := category.id,
            organization_id := target }
        let st := st.updateQuestion existing_question.id (fun _ => updated)
        let st := st.deleteOptionsOf existing_question.id
        let st := question.options.foldl
          (fun st o => st.addOption ⟨existing_question.id, pyStrip o.text, o.is_correct⟩) st
        commitQuestionsLoop target category_lookup rest st
          (dictInsert question_lookup prompt_key updated)
          { result with questions_updated := result.questions_updated + 1 }

/-- The link loop of the quiz phase (admin.py lines 775-789): `enumerate`
from position 1, failing on a prompt absent from the question lookup. -/
def quizLinksLoop (question_lookup : List (Str × Question)) (quiz_title : Str) (qid : Nat) :
    List Str → Nat → Store → Except Str Store
  | [], _, st => .ok st
  | prompt :: rest, position, st =>
    match dictGet question_lookup (pyLower (pyStrip prompt)) with
    | none =>
      .error (S "Quiz \x27" ++ quiz_title ++ S "\x27 references question \x27" ++ prompt ++
        S "\x27 that was not found.")
    | some question_obj =>
      quizLinksLoop question_lookup quiz_title qid rest (position + 1)
        (st.addQuizQuestion ⟨qid, question_obj.id, position⟩)

/-- The quiz phase of `commit_bulk_import` (admin.py lines 751-789): upsert
each quiz by title key, then fully replace its ordered link rows with the
deduplicated merge of its own prompts and the collected indirect prompts. -/
def commitQuizzesLoop (target : Scope) (question_lookup : List (Str × Question))
    (quiz_prompt_requirements : List (Str × List Str)) :
    List BulkQuizPayload → Store → List (Str × Quiz) → BulkImportResult →
      Except Str (Store × BulkImportResult)
  | [], st, _, result => .ok (st, result)
  | quiz :: rest, st, existing_quizzes, result =>
    let title := pyStrip quiz.title
    let title_key := pyLower title
    let description := _normalize_optional quiz.description
    let upserted :
        Store × List (Str × Quiz) × Quiz × BulkImportResult :=
      match dictGet existing_quizzes title_key with
      | none =>
        let added := st.addQuiz (fun i =>
          { id := i, title := title, description := description,
            is_active := quiz.is_active, organization_id := target })
        (added.1, dictInsert existing_quizzes title_key added.2, added.2,
          { result with quizzes_created := result.quizzes_created + 1 })
      | some existing_quiz =>
        (st.updateQuiz existing_quiz.id (fun q =>
          { q with
            description := description,
            is_active := quiz.is_active,
            organization_id := target }),
          existing_quizzes, existing_quiz,
          { result with quizzes_updated := result.quizzes_updated + 1 })
    let prompts := _dedupe_preserve_order
      (quiz.question_prompts ++ (dictGet quiz_prompt_requirements title_key).getD [])
    let st1 := upserted.1.deleteQuizQuestionsOf upserted.2.2.1.id
    match quizLinksLoop question_lookup quiz.title upserted.2.2.1.id prompts 1 st1 with
    | .error e => .error e
    | .ok st2 =>
      commitQuizzesLoop target question_lookup quiz_prompt_requirements rest st2
        upserted.2.1 upserted.2.2.2

/-- `commit_bulk_import` from admin.py: defensive validation, the
referential pre-check, then the three upsert phases inside one transaction,
committed at the end; any raise rolls the session back.  The result pairs
the HTTP outcome with the session after the route finishes. -/
def commit_bulk_import (payload : BulkImportCommit) (target_org_id : Scope) (s : Session) :
    Except Str BulkImportResult × Session :=
  if payload.categories = [] ∧ payload.questions = [] ∧ payload.quizzes = [] then
    (.error (S "No records to import."), s)
  else
    match _ensure_unique_categories payload.categories with
    | .error e => (.error e, s)
    | .ok _ =>
    match _ensure_valid_questions payload.questions with
    | .error e => (.error e, s)
    | .ok _ =>
    match _ensure_unique_quizzes payload.quizzes with
    | .error e => (.error e, s)
    | .ok _ =>
      let existing_categories := _fetch_category_map s target_org_id
      let existing_quizzes := _fetch_quiz_map s target_org_id
      let quiz_titles_defined :=
        (payload.quizzes.filter (fun q => ¬ pyStrip q.title = [])).map
          (fun q => pyLower (pyStrip q.title))
      match checkQuizRefs quiz_titles_defined existing_quizzes payload.questions with
      | .error e => (.error e, s)
      | .ok _ =>
        let quiz_prompt_requirements := _collect_quiz_prompts payload
        let all_needed_prompts :=
          (quiz_prompt_requirements.map Prod.snd).flatten ++
            payload.questions.map (fun q => q.prompt)
        let existing_questions := _fetch_question_map s target_org_id (some all_needed_prompts)
        let category_lookup := existing_categories
        let result0 : BulkImportResult := ⟨0, 0, 0, 0, 0, 0⟩
        let phase1 :=
          commitCategoriesLoop target_org_id payload.categories s.pending category_lookup result0
        match commitQuestionsLoop target_org_id phase1.2.1 payload.questions phase1.1
            existing_questions phase1.2.2 with
        | .error e => (.error e, s.rollback)
        | .ok phase2 =>
          match commitQuizzesLoop target_org_id phase2.2.1 quiz_prompt_requirements
              payload.quizzes phase2.1 existing_quizzes phase2.2.2 with
          | .error e => (.error e, s.rollback)
          | .ok phase3 =>
            (.ok phase3.2, Session.commit ⟨s.persisted, phase3.1⟩)

/-! ## Dictionary lemmas -/

theorem dictGet_nil {κ α : Type} [DecidableEq κ] (k : κ) :
    dictGet ([] : List (κ × α)) k = none := rfl

theorem dictGet_cons {κ α : Type} [DecidableEq κ] (a : κ × α) (m : List (κ × α)) (k : κ) :
    dictGet (a :: m) k = if a.1 = k then some a.2 else dictGet m k := by
  by_cases h : a.1 = k <;> simp [dictGet, List.find?, h]

theorem dictGet_eq_none_of_not_contains {κ α : Type} [DecidableEq κ]
    {m : List (κ × α)} {k : κ} (h : (m.map Prod.fst).contains k = false) :
    dictGet m k = none := by
  induction m with
  | nil => rfl
  | cons a m ih =>
    simp only [List.map_cons, List.contains_cons] at h
    rw [dictGet_cons]
    have h1 : ¬ a.1 = k := by
      intro hh
      simp [hh] at h
    rw [if_neg h1]
    exact ih (by simpa using (Bool.or_eq_false_iff.mp h).2)

theorem dictGet_map_replace {κ α : Type} [DecidableEq κ]
    (m : List (κ × α)) (k k' : κ) (v : α) :
    dictGet (m.map (fun p => if p.1 = k then (k, v) else p)) k' =
      if k' = k then (if (m.map Prod.fst).contains k then some v else none)
      else dictGet m k' := by
  induction m with
  | nil => by_cases h : k' = k <;> simp [dictGet_nil, h]
  | cons a m ih =>
    simp only [List.map_cons, dictGet_cons, List.contains_cons]
    by_cases ha : a.1 = k
    · by_cases hk : k' = k
      · subst hk
        simp [ha]
      · have hak : ¬ a.1 = k' := fun hh => hk ((ha.symm.trans hh).symm)
        have hkk : ¬ k = k' := fun hh => hk hh.symm
        simp only [if_pos ha, if_neg hkk, if_neg hk, if_neg hak, ih]
    · by_cases hk2 : a.1 = k'
      · have hkk : ¬ k' = k := fun hh => ha (hk2.trans hh)
        simp [ha, hk2, hkk]
      · simp only [if_neg ha, if_neg hk2, ih]
        by_cases hkk : k' = k
        · subst hkk
          have hb : (k' == a.1) = false := beq_eq_false_iff_ne.mpr (fun hh => hk2 hh.symm)
          rw [hb, Bool.false_or]
        · simp [hkk, hk2]

theorem dictGet_append_single {κ α : Type} [DecidableEq κ]
    (m : List (κ × α)) (k k' : κ) (v : α) :
    dictGet (m ++ [(k, v)]) k' =
      match dictGet m k' with
      | some w => some w
      | none => if k = k' then some v else none := by
  induction m with
  | nil => simp [dictGet_nil, dictGet_cons]
  | cons a m ih =>
    rw [List.cons_append, dictGet_cons]
    by_cases h : a.1 = k'
    · simp [dictGet_cons, h]
    · simp only [if_neg h, dictGet_cons, ih]

/-- The master lemma: a Python dict insert behaves as a functional update
under lookup. -/
theorem dictGet_dictInsert {κ α : Type} [DecidableEq κ]
    (m : List (κ × α)) (k k' : κ) (v : α) :
    dictGet (dictInsert m k v) k' = if k' = k then some v else dictGet m k' := by
  unfold dictInsert
  by_cases hc : (m.map Prod.fst).contains k
  · rw [if_pos hc, dictGet_map_replace, if_pos hc]
  · rw [if_neg hc, dictGet_append_single]
    have hnone : dictGet m k = none :=
      dictGet_eq_none_of_not_contains (by simpa using hc)
    by_cases hk : k' = k
    · subst hk
      simp [hnone]
    · cases hg : dictGet m k'
      · simp [hk, show ¬ k = k' from fun hh => hk hh.symm]
      · simp [hk]

/-- Lookup in a map built by folding key/value inserts over a row list: the
last row whose key matches wins, falling back to the initial map. -/
theorem dictGet_foldl_insert {κ α β : Type} [DecidableEq κ]
    (f : α → κ) (g : α → β) :
    ∀ (l : List α) (m0 : List (κ × β)) (k : κ),
      dictGet (l.foldl (fun m r => dictInsert m (f r) (g r)) m0) k =
        match l.reverse.find? (fun r => f r = k) with
        | some r => some (g r)
        | none => dictGet m0 k := by
  intro l
  induction l with
  | nil => intro m0 k; rfl
  | cons a l ih =>
    intro m0 k
    rw [List.foldl_cons, ih, List.reverse_cons, List.find?_append]
    cases hfind : l.reverse.find? (fun r => f r = k) with
    | some r => rfl
    | none =>
      by_cases h : f a = k
      · rw [dictGet_dictInsert, if_pos h.symm]
        simp [List.find?, h]
      · rw [dictGet_dictInsert, if_neg (fun hh => h hh.symm)]
        simp [List.find?, h]

/-- Corollary of `dictGet_foldl_insert` when the (reversed) row list has a
match. -/
theorem dictGet_foldl_insert_find {κ α β : Type} [DecidableEq κ]
    (f : α → κ) (g : α → β) {l : List α} {m0 : List (κ × β)} {k : κ} {r : α}
    (h : l.reverse.find? (fun x => f x = k) = some r) :
    dictGet (l.foldl (fun m x => dictInsert m (f x) (g x)) m0) k = some (g r) := by
  rw [dictGet_foldl_insert f g l m0 k, h]

/-- Corollary of `dictGet_foldl_insert` when no row matches. -/
theorem dictGet_foldl_insert_none {κ α β : Type} [DecidableEq κ]
    (f : α → κ) (g : α → β) {l : List α} {m0 : List (κ × β)} {k : κ}
    (h : l.reverse.find? (fun x => f x = k) = none) :
    dictGet (l.foldl (fun m x => dictInsert m (f x) (g x)) m0) k = dictGet m0 k := by
  rw [dictGet_foldl_insert f g l m0 k, h]

/-- Membership characterisation for fold-built maps over an empty initial
map. -/
theorem dictGet_foldl_insert_isSome {κ α β : Type} [DecidableEq κ]
    (f : α → κ) (g : α → β) (l : List α) (k : κ) :
    (dictGet (l.foldl (fun m r => dictInsert m (f r) (g r)) []) k).isSome =
      l.any (fun r => f r = k) := by
  rw [dictGet_foldl_insert]
  cases hfind : l.reverse.find? (fun r => f r = k) with
  | some r =>
    have hp := List.find?_some hfind
    have hmem : r ∈ l.reverse := List.mem_of_find?_eq_some hfind
    simp only [Option.isSome_some]
    symm
    simp only [List.any_eq_true]
    exact ⟨r, List.mem_reverse.mp hmem, hp⟩
  | none =>
    simp only [dictGet_nil, Option.isSome_none]
    symm
    simp only [List.any_eq_false]
    intro r hr
    exact List.find?_eq_none.mp hfind r (List.mem_reverse.mpr hr)

/-- Values of a fold-built map come from the row list (or the initial map). -/
theorem dictGet_foldl_insert_mem {κ α β : Type} [DecidableEq κ]
    (f : α → κ) (g : α → β) {l : List α} {m0 : List (κ × β)} {k : κ} {v : β}
    (h : dictGet (l.foldl (fun m r => dictInsert m (f r) (g r)) m0) k = some v) :
    (∃ r ∈ l, f r = k ∧ g r = v) ∨ dictGet m0 k = some v := by
  rw [dictGet_foldl_insert] at h
  cases hfind : l.reverse.find? (fun r => f r = k) with
  | some r =>
    rw [hfind] at h
    left
    refine ⟨r, List.mem_reverse.mp (List.mem_of_find?_eq_some hfind), ?_, Option.some_inj.mp h⟩
    simpa using List.find?_some hfind
  | none =>
    rw [hfind] at h
    right
    exact h

theorem findSome?_isSome_iff {α β : Type} (f : α → Option β) (l : List α) :
    (l.findSome? f).isSome = true ↔ ∃ a ∈ l, (f a).isSome = true := by
  induction l with
  | nil => simp [List.findSome?]
  | cons a l ih =>
    rw [List.findSome?]
    cases hf : f a with
    | some b => simp [hf]
    | none =>
      simp only [List.mem_cons]
      constructor
      · intro hh
        obtain ⟨a2, ha2, hsome⟩ := ih.mp hh
        exact ⟨a2, Or.inr ha2, hsome⟩
      · rintro ⟨a2, ha2 | ha2, hsome⟩
        · rw [ha2] at hsome
          rw [hf] at hsome
          simp at hsome
        · exact ih.mpr ⟨a2, ha2, hsome⟩

theorem findSome?_eq_some {α β : Type} {f : α → Option β} {l : List α} {b : β}
    (h : l.findSome? f = some b) : ∃ a ∈ l, f a = some b := by
  induction l with
  | nil => simp [List.findSome?] at h
  | cons a l ih =>
    rw [List.findSome?] at h
    cases hf : f a with
    | some c =>
      rw [hf] at h
      exact ⟨a, List.mem_cons_self a l, hf.trans h⟩
    | none =>
      rw [hf] at h
      obtain ⟨x, hx, hfx⟩ := ih h
      exact ⟨x, List.mem_cons_of_mem a hx, hfx⟩

/-! ## Claim theorems -/

/-- The codec roundtrip, for any positive column and any non-alphabetic
suffix (shared by the C8 claim and the Writer/Reader roundtrip). -/
theorem column_index_letter_suffix {n : Nat} (ds : Str) (h1 : 1 ≤ n)
    (hd : ∀ c ∈ ds, c.isAlpha = false) :
    _column_index (some (_column_letter n ++ ds)) = n := by
  have hne : ¬ _column_letter n = [] := _column_letter_ne_nil h1
  have hfilter1 : (_column_letter n).filter Char.isAlpha = _column_letter n := by
    rw [List.filter_eq_self]
    intro c hc
    obtain ⟨r, hr, rfl⟩ := _column_letter_chars n c hc
    exact upperLetter_isAlpha hr
  have hfilter2 : ds.filter Char.isAlpha = [] := by
    rw [List.filter_eq_nil_iff]
    intro c hc
    simp [hd c hc]
  have href : ¬ (_column_letter n ++ ds = []) := fun h => hne (List.append_eq_nil.mp h).1
  simp only [_column_index]
  rw [if_neg href, List.filter_append, hfilter1, hfilter2, List.append_nil, if_neg hne]
  exact decode_column_letter n

/-- C8: decoding the column letters produced for any `n` in `[1, 2000]`,
even with row digits appended, yields `n` back, and `_column_letter` is the
bijective base-26 encoding (1 → A, 26 → Z, 27 → AA). -/
theorem C8_column_codec_roundtrip :
    (∀ (n : Nat) (row_digits : Str), 1 ≤ n → n ≤ 2000 →
      (∀ c ∈ row_digits, c.isAlpha = false) →
      _column_index (some (_column_letter n ++ row_digits)) = n) ∧
    _column_letter 1 = S "A" ∧ _column_letter 26 = S "Z" ∧ _column_letter 27 = S "AA" := by
  refine ⟨?_, by decide, by decide, by decide⟩
  intro n ds h1 _h2 hd
  exact column_index_letter_suffix ds h1 hd

/-- Witness for C8 at `n = 27` with row digits `7` (cell `AA7`). -/
theorem C8_column_codec_roundtrip_witness :
    _column_index (some (_column_letter 27 ++ S "7")) = 27 :=
  C8_column_codec_roundtrip.1 27 (S "7") (by decide) (by decide) (by decide)

/-- C9 counterexample: the sheet name `Category-Setup` agrees with the alias
`category setup` up to case and non-alphanumeric characters, yet
`_locate_sheet` does not find it — lookup is only case-insensitive, not
punctuation-insensitive. -/
theorem C9_counterexample :
    _locate_sheet [S "Category-Setup"] _CATEGORY_SHEET_NAMES = none ∧
    (S "category setup") ∈ _CATEGORY_SHEET_NAMES ∧
    (pyLower (S "Category-Setup")).filter isSlugChar
      = (pyLower (S "category setup")).filter isSlugChar := by
  exact ⟨by decide, by decide, by decide⟩

/-- C9 (amended): sheet lookup is case-insensitive only — a logical sheet is
found exactly when some sheet name equals some alias after lower-casing, and
any returned name is such a sheet name; punctuation and whitespace are not
normalised away (see `C9_counterexample`). -/
theorem C9_locate_sheet_case_only :
    ∀ (sheet_names expected : List Str),
      ((_locate_sheet sheet_names expected).isSome = true ↔
        ∃ cand ∈ expected, ∃ nm ∈ sheet_names, pyLower nm = pyLower cand) ∧
      (∀ nm, _locate_sheet sheet_names expected = some nm →
        nm ∈ sheet_names ∧ ∃ cand ∈ expected, pyLower nm = pyLower cand) := by
  intro sheet_names expected
  simp only [_locate_sheet]
  constructor
  · rw [findSome?_isSome_iff]
    constructor
    · rintro ⟨cand, hcand, hsome⟩
      cases hfind : sheet_names.reverse.find? (fun x => pyLower x = pyLower cand) with
      | none =>
        rw [dictGet_foldl_insert_none pyLower (fun x => x) hfind, dictGet_nil] at hsome
        simp at hsome
      | some r =>
        refine ⟨cand, hcand, r, List.mem_reverse.mp (List.mem_of_find?_eq_some hfind), ?_⟩
        simpa using List.find?_some hfind
    · rintro ⟨cand, hcand, nm, hnm, heq⟩
      refine ⟨cand, hcand, ?_⟩
      cases hfind : sheet_names.reverse.find? (fun x => pyLower x = pyLower cand) with
      | none =>
        have := List.find?_eq_none.mp hfind nm (List.mem_reverse.mpr hnm)
        exact absurd heq (by simpa using this)
      | some r =>
        rw [dictGet_foldl_insert_find pyLower (fun x => x) hfind]
        simp
  · intro nm hnm
    obtain ⟨cand, hcand, hval⟩ := findSome?_eq_some hnm
    cases hfind : sheet_names.reverse.find? (fun x => pyLower x = pyLower cand) with
    | none =>
      rw [dictGet_foldl_insert_none pyLower (fun x => x) hfind, dictGet_nil] at hval
      exact absurd hval (by simp)
    | some r =>
      rw [dictGet_foldl_insert_find pyLower (fun x => x) hfind] at hval
      obtain rfl : r = nm := Option.some_inj.mp hval
      refine ⟨List.mem_reverse.mp (List.mem_of_find?_eq_some hfind), cand, hcand, ?_⟩
      simpa using List.find?_some hfind

/-- Witness for C9 (amended) on a concrete lookup. -/
theorem C9_locate_sheet_case_only_witness :
    (S "CATEGORIES") ∈ [S "CATEGORIES"] ∧
      ∃ cand ∈ _CATEGORY_SHEET_NAMES, pyLower (S "CATEGORIES") = pyLower cand :=
  (C9_locate_sheet_case_only [S "CATEGORIES"] _CATEGORY_SHEET_NAMES).2
    (S "CATEGORIES") (by decide)

/-- C5 counterexample: a non-blank question row with one extracted option
and no resolved correct option gets only the too-few-options error — the
`elif` in `_parse_questions` suppresses the no-correct-option error, so the
two conditions are not reported independently. -/
theorem C5_counterexample :
    (_parse_questions
      [[some (.s (S "Prompt")), some (.s (S "Category")), some (.s (S "Option 1")),
        some (.s (S "Option 2")), some (.s (S "Correct Option"))],
       [some (.s (S "P")), some (.s (S "C")), some (.s (S "A")), none,
        some (.s (S "zzz"))]]).map
      (fun q => (q.errors, q.options.length, q.options.any (fun o => o.is_correct)))
      = [([S "Provide at least two options."], 1, false)] := by
  decide

theorem questionsLoop_option_errors (headers : List Str) :
    ∀ (l : List (Nat × List CellV)), ∀ q ∈ questionsLoop headers l,
      (q.options.length < 2 →
        S "Provide at least two options." ∈ q.errors ∧
        ¬ S "Select a correct option." ∈ q.errors) ∧
      (2 ≤ q.options.length → q.options.any (fun o => o.is_correct) = false →
        S "Select a correct option." ∈ q.errors) := by
  intro l
  induction l with
  | nil => intro q hq; simp [questionsLoop] at hq
  | cons p rest ih =>
    obtain ⟨ri, values⟩ := p
    intro q hq
    simp only [questionsLoop] at hq
    split at hq
    · exact ih q hq
    · rcases List.mem_cons.mp hq with rfl | hmem
      · dsimp only
        refine ⟨fun hlen => ⟨?_, ?_⟩, fun hlen2 hany => ?_⟩
        · refine List.mem_append.mpr (Or.inr ?_)
          rw [if_pos hlen]
          simp
        · intro hbad
          rcases List.mem_append.mp hbad with h | h
          · rcases List.mem_append.mp h with h2 | h2
            · split at h2
              · exact absurd (List.mem_singleton.mp h2) (by decide)
              · simp at h2
            · split at h2
              · exact absurd (List.mem_singleton.mp h2) (by decide)
              · simp at h2
          · rw [if_pos hlen] at h
            exact absurd (List.mem_singleton.mp h) (by decide)
        · refine List.mem_append.mpr (Or.inr ?_)
          rw [if_neg (by omega), if_pos (by simp [hany])]
          simp
      · exact ih q hmem

/-- C5 (amended): in `_parse_questions`, a row with fewer than two extracted
options gets only the too-few-options error (the no-correct-option check is
on the `elif` branch and is suppressed); the no-correct error is reported
exactly for rows with at least two options and none marked correct.  Parsing
is total — it never raises. -/
theorem C5_option_errors_not_independent :
    ∀ (rows : List (List CellV)), ∀ q ∈ _parse_questions rows,
      (q.options.length < 2 →
        S "Provide at least two options." ∈ q.errors ∧
        ¬ S "Select a correct option." ∈ q.errors) ∧
      (2 ≤ q.options.length → q.options.any (fun o => o.is_correct) = false →
        S "Select a correct option." ∈ q.errors) := by
  intro rows
  exact questionsLoop_option_errors (_extract_headers rows) (_iter_rows rows)

/-- Witness for C5 (amended) on the counterexample row. -/
theorem C5_option_errors_not_independent_witness :
    S "Provide at least two options." ∈
        [S "Provide at least two options."] ∧
      ¬ S "Select a correct option." ∈ [S "Provide at least two options."] := by
  have h := C5_option_errors_not_independent
    [[some (.s (S "Prompt")), some (.s (S "Category")), some (.s (S "Option 1")),
      some (.s (S "Option 2")), some (.s (S "Correct Option"))],
     [some (.s (S "P")), some (.s (S "C")), some (.s (S "A")), none,
      some (.s (S "zzz"))]]
  exact ((h ⟨2, S "P", none, none, none, true, S "C", [], [⟨S "A", false⟩],
    [S "Provide at least two options."]⟩ (by decide)).1 (by decide))

/-- C10: `slugify` never returns the empty string; every input with no
ASCII letter or digit after lower-casing slugifies to the constant
`subject`; consequently two distinct such category names share one natural
key, and the preview's category pass flags the second as an in-upload
duplicate. -/
theorem C10_slugify_never_empty :
    (∀ s : Str, ¬ slugify s = []) ∧
    (∀ s : Str, (∀ c ∈ pyLower s, isSlugChar c = false) → slugify s = S "subject") ∧
    (∀ (existing : List (Str × Category)) (n1 n2 : Str) (r1 r2 : Nat),
      ¬ n1 = [] → ¬ n2 = [] → ¬ n1 = n2 →
      (∀ c ∈ pyLower n1, isSlugChar c = false) →
      (∀ c ∈ pyLower n2, isSlugChar c = false) →
      slugify n1 = slugify n2 ∧
      ((previewCategoriesLoop existing
          [⟨r1, n1, none, none, []⟩, ⟨r2, n2, none, none, []⟩] []).map
        (fun r => r.errors)).getD 1 []
        = [S "Duplicate category name in the workbook."]) := by
  refine ⟨slugify_ne_nil, fun s h => slugify_of_no_alnum h, ?_⟩
  intro existing n1 n2 r1 r2 hn1 hn2 _hne hA hB
  have hs1 : slugify n1 = S "subject" := slugify_of_no_alnum hA
  have hs2 : slugify n2 = S "subject" := slugify_of_no_alnum hB
  refine ⟨hs1.trans hs2.symm, ?_⟩
  simp only [previewCategoriesLoop]
  rw [if_neg hn1, if_neg hn2, hs1, hs2]
  simp only [dictGet_nil, dictGet_dictInsert]
  norm_num
  decide

/-- Witness for C10 at `???` and `!!!` against an empty store. -/
theorem C10_slugify_never_empty_witness :
    slugify (S "???") = slugify (S "!!!") ∧
      ((previewCategoriesLoop []
          [⟨2, S "???", none, none, []⟩, ⟨3, S "!!!", none, none, []⟩] []).map
        (fun r => r.errors)).getD 1 []
        = [S "Duplicate category name in the workbook."] :=
  C10_slugify_never_empty.2.2 [] (S "???") (S "!!!") 2 3
    (by decide) (by decide) (by decide) (by decide) (by decide)

/-- C7: the preview step is read-only and idempotent — it returns the
session unchanged, and running it again on the resulting state yields the
identical response (hence identical `action` classifications and error
lists for every record). -/
theorem C7_preview_idempotent_readonly :
    ∀ (z : ZipData) (target : Scope) (s : Session),
      (preview_bulk_import z target s).2 = s ∧
      (preview_bulk_import z target ((preview_bulk_import z target s).2)).1
        = (preview_bulk_import z target s).1 := by
  intro z target s
  have h2 : (preview_bulk_import z target s).2 = s := by
    unfold preview_bulk_import
    cases parse_workbook z <;> rfl
  exact ⟨h2, by rw [h2]⟩

/-- C1: whenever `commit_bulk_import` fails — at validation, at the
referential pre-check, or inside the transaction (including an unresolvable
quiz question prompt) — the persisted store afterwards is exactly the
persisted store before the call: the transaction is rolled back and no row
of any kind survives. -/
theorem C1_commit_atomic_on_error :
    ∀ (payload : BulkImportCommit) (target : Scope) (s : Session) (e : Str),
      (commit_bulk_import payload target s).1 = .error e →
      (commit_bulk_import payload target s).2.persisted = s.persisted := by
  intro payload target s e
  unfold commit_bulk_import
  split
  · intro _; rfl
  · split
    · intro _; rfl
    · split
      · intro _; rfl
      · split
        · intro _; rfl
        · dsimp only
          split
          · intro _; rfl
          · split
            · intro _; rfl
            · split
              · intro _; rfl
              · intro hcontra
                simp at hcontra

/-- Witness for C1: the empty payload fails with `No records to import.`
and leaves the store untouched. -/
theorem C1_commit_atomic_on_error_witness :
    (commit_bulk_import ⟨[], [], []⟩ none
        (Session.start ⟨[], [], [], [], [], 1⟩)).2.persisted
      = (⟨[], [], [], [], [], 1⟩ : Store) :=
  C1_commit_atomic_on_error ⟨[], [], []⟩ none (Session.start ⟨[], [], [], [], [], 1⟩)
    (S "No records to import.") (by decide)

/-- A sheet entry that makes the reader raise, per the amended reading of
the spec: its `name` or relationship-id attribute is missing, or its
relationship target resolves to a non-empty path whose part is missing or
fails to parse.  (A relationship id absent from the map, or an empty
target, is a silent skip, not an error.) -/
def sheetDefect (fs : List (Str × Entry)) (relationships : List (Str × Str))
    (sheet : XmlElem) : Bool :=
  (xmlAttr sheet (S "name")).isNone || (xmlAttr sheet (S "r:id")).isNone ||
    (match xmlAttr sheet (S "r:id") with
     | none => false
     | some rid =>
       match dictGet relationships rid with
       | none => false
       | some target =>
         if target = [] then false
         else
           let sheet_path :=
             if target.head? = some '/' then target.dropWhile (fun c => c = '/')
             else S "xl/" ++ target
           match dictGet fs sheet_path with
           | none => true
           | some .notXml => true
           | some (.xml _) => false)

/-- The fatal conditions of `parse_workbook`, written out from the amended
claim: bytes that are not a zip; a missing or malformed workbook descriptor
or workbook relationship part; a relationship entry without `Id` or
`Target`; a shared-string part present but malformed; or a declared sheet
with a `sheetDefect`. -/
def fatalPackageDefect (z : ZipData) : Bool :=
  match z with
  | .badZip => true
  | .entries fs =>
    match dictGet fs (S "xl/workbook.xml") with
    | none => true
    | some .notXml => true
    | some (.xml workbook_tree) =>
      match dictGet fs (S "xl/_rels/workbook.xml.rels") with
      | none => true
      | some .notXml => true
      | some (.xml rels_tree) =>
        let rels := rels_tree.children.filter (fun e => e.tag = _REL_QUERY_TAG)
        if rels.any (fun rel =>
            (xmlAttr rel (S "Id")).isNone || (xmlAttr rel (S "Target")).isNone) then true
        else
          match dictGet fs (S "xl/sharedStrings.xml") with
          | some .notXml => true
          | _ =>
            match buildRels rels with
            | .error _ => true
            | .ok relationships =>
              ((workbook_tree.children.filter (fun e => e.tag = S "sheets")).flatMap
                (fun ss => ss.children.filter (fun e => e.tag = S "sheet"))).any
                (sheetDefect fs relationships)

theorem buildRels_foldlM_error_iff :
    ∀ (rels : List XmlElem) (m : List (Str × Str)),
      (∃ e, (rels.foldlM (fun m rel =>
          match xmlAttr rel (S "Id"), xmlAttr rel (S "Target") with
          | some i, some t => (.ok (dictInsert m i t) : Except PyErr (List (Str × Str)))
          | _, _ => .error .keyError) m) = .error e) ↔
        rels.any (fun rel =>
          (xmlAttr rel (S "Id")).isNone || (xmlAttr rel (S "Target")).isNone) = true := by
  intro rels
  induction rels with
  | nil =>
    intro m
    simp [pure, Except.pure]
  | cons rel rest ih =>
    intro m
    rw [List.foldlM_cons, List.any_cons]
    cases hid : xmlAttr rel (S "Id") with
    | none =>
      simp only [hid, Option.isNone_none, Bool.true_or, Bool.or_true, iff_true]
      exact ⟨PyErr.keyError, rfl⟩
    | some i =>
      cases htg : xmlAttr rel (S "Target") with
      | none =>
        simp only [hid, htg, Option.isNone_none, Option.isNone_some, Bool.false_or,
          Bool.true_or, iff_true]
        exact ⟨PyErr.keyError, rfl⟩
      | some t =>
        simp only [hid, htg, Option.isSome_some, Option.isNone_some, Bool.false_or]
        exact ih (dictInsert m i t)

theorem sheetsLoop_error_iff (fs : List (Str × Entry)) (shared : List Str)
    (relationships : List (Str × Str)) :
    ∀ (sheets : List XmlElem) (acc : List (Str × List (List CellV))),
      (∃ e, sheetsLoop fs shared relationships sheets acc = .error e) ↔
        sheets.any (sheetDefect fs relationships) = true := by
  intro sheets
  induction sheets with
  | nil => intro acc; simp [sheetsLoop]
  | cons sheet rest ih =>
    intro acc
    rw [List.any_cons, sheetsLoop]
    cases hname : xmlAttr sheet (S "name") with
    | none => simp [sheetDefect, hname]
    | some name =>
      cases hrid : xmlAttr sheet (S "r:id") with
      | none => simp [sheetDefect, hname, hrid]
      | some rid =>
        dsimp only
        cases hrel : dictGet relationships rid with
        | none =>
          dsimp only
          have hdefect : sheetDefect fs relationships sheet = false := by
            simp [sheetDefect, hname, hrid, hrel]
          rw [hdefect]
          simpa using ih acc
        | some target =>
          dsimp only
          by_cases htgt : target = []
          · have hdefect : sheetDefect fs relationships sheet = false := by
              simp [sheetDefect, hname, hrid, hrel, htgt]
            rw [if_pos htgt, hdefect]
            simpa using ih acc
          · rw [if_neg htgt]
            simp only [_parse_sheet]
            cases hpart : dictGet fs
                (if target.head? = some '/' then target.dropWhile (fun c => c = '/')
                 else S "xl/" ++ target) with
            | none =>
              have hdefect : sheetDefect fs relationships sheet = true := by
                simp [sheetDefect, hname, hrid, hrel, htgt, hpart]
              rw [hdefect]
              simp
            | some entry =>
              cases entry with
              | notXml =>
                have hdefect : sheetDefect fs relationships sheet = true := by
                  simp [sheetDefect, hname, hrid, hrel, htgt, hpart]
                rw [hdefect]
                simp
              | xml tree =>
                have hdefect : sheetDefect fs relationships sheet = false := by
                  simp [sheetDefect, hname, hrid, hrel, htgt, hpart]
                rw [hdefect]
                dsimp only
                simpa using ih (dictInsert acc name (((tree.children.filter
                  (fun e => e.tag = S "sheetData")).flatMap
                    (fun sd => sd.children.filter (fun r => r.tag = S "row"))).map
                      (parseSheetRow shared)))

theorem load_sheet_map_error_iff (z : ZipData) :
    (∃ e, _load_sheet_map z = .error e) ↔ fatalPackageDefect z = true := by
  cases z with
  | badZip => simp [_load_sheet_map, fatalPackageDefect]
  | entries fs =>
    rw [_load_sheet_map, fatalPackageDefect]
    cases hwb : dictGet fs (S "xl/workbook.xml") with
    | none => simp [readXml, hwb, Bind.bind, Except.bind]
    | some wbe =>
      cases wbe with
      | notXml => simp [readXml, hwb, Bind.bind, Except.bind]
      | xml workbook_tree =>
        simp only [readXml, hwb]
        cases hrl : dictGet fs (S "xl/_rels/workbook.xml.rels") with
        | none => simp [hrl, Bind.bind, Except.bind]
        | some rle =>
          cases rle with
          | notXml => simp [hrl, Bind.bind, Except.bind]
          | xml rels_tree =>
            simp only [hrl, Bind.bind, Except.bind]
            by_cases hany : (rels_tree.children.filter (fun e => e.tag = _REL_QUERY_TAG)).any
                (fun rel => (xmlAttr rel (S "Id")).isNone ||
                  (xmlAttr rel (S "Target")).isNone) = true
            · obtain ⟨e, he⟩ := (buildRels_foldlM_error_iff _ []).mpr hany
              rw [show buildRels (rels_tree.children.filter (fun e => e.tag = _REL_QUERY_TAG))
                  = .error e from he]
              simp [hany]
            · rw [if_neg hany]
              have hok : ∃ m, buildRels
                  (rels_tree.children.filter (fun e => e.tag = _REL_QUERY_TAG)) = .ok m := by
                cases hb : buildRels (rels_tree.children.filter (fun e => e.tag = _REL_QUERY_TAG)) with
                | error e => exact absurd ((buildRels_foldlM_error_iff _ []).mp ⟨e, hb⟩) hany
                | ok m => exact ⟨m, rfl⟩
              obtain ⟨m, hm⟩ := hok
              rw [hm]
              cases hss : dictGet fs (S "xl/sharedStrings.xml") with
              | none =>
                simp only [_parse_shared_strings, hss]
                exact sheetsLoop_error_iff fs [] m _ []
              | some sse =>
                cases sse with
                | notXml => simp [_parse_shared_strings, hss]
                | xml sst =>
                  simp only [_parse_shared_strings, hss]
                  exact sheetsLoop_error_iff fs _ m _ []

/-- A package whose workbook descriptor declares one sheet under `rId1`
while the relationship part has no entries at all. -/
def C4_missingRelIdPackage : ZipData :=
  .entries
    [(S "xl/workbook.xml", .xml (.mk (S "workbook") [] none
        [.mk (S "sheets") [] none
          [.mk (S "sheet") [(S "name", S "Categories"), (S "r:id", S "rId1")] none []]])),
     (S "xl/_rels/workbook.xml.rels", .xml (.mk (S "Relationships") [] none []))]

/-- C4 counterexample: a workbook descriptor referencing a relationship id
absent from the relationship part does NOT raise `FormatError` — the sheet
is silently skipped and `parse_workbook` returns a `ParsedWorkbook` whose
three sheets were simply not found. -/
theorem C4_counterexample :
    parse_workbook C4_missingRelIdPackage
      = .ok ⟨[], [], [],
        [S "Categories sheet not found. Expected a sheet named \x27Categories\x27.",
         S "Quizzes sheet not found. Expected a sheet named \x27Quizzes\x27.",
         S "Questions sheet not found. Expected a sheet named \x27Questions\x27."]⟩ := by
  decide

/-- C4 (amended): `parse_workbook` raises `FormatError` exactly when the
bytes are not a valid zip, the workbook descriptor part or its relationship
part is missing or fails to parse, a relationship entry lacks its `Id` or
`Target` attribute, a shared-string part is present but fails to parse, or
a declared sheet lacks its name or relationship-id attribute or resolves to
a missing or malformed worksheet part.  A relationship id absent from the
relationship part (or an empty target) silently skips the sheet instead of
raising (`C4_counterexample`), and the parsers of located sheets never
raise. -/
theorem C4_parse_workbook_failure_conditions :
    ∀ z : ZipData, (∃ msg, parse_workbook z = .error msg) ↔ fatalPackageDefect z = true := by
  intro z
  rw [← load_sheet_map_error_iff]
  unfold parse_workbook
  cases h : _load_sheet_map z with
  | error e =>
    cases e <;> simp [h]
  | ok sheet_map => simp [h]

/-! ## Writer→Reader roundtrip (C2) -/

theorem natDigitsAux_chars : ∀ (n : Nat), ∀ c ∈ natDigitsAux n,
    ∃ r : Nat, r < 10 ∧ c = Char.ofNat (48 + r) := by
  intro n
  induction n using Nat.strong_induction_on with
  | _ n ih =>
    intro c hc
    rcases n with _ | n
    · simp [natDigitsAux, natDigitsAuxGo] at hc
    · rw [natDigitsAux_succ] at hc
      rcases List.mem_append.mp hc with h | h
      · exact ih ((n + 1) / 10) (Nat.div_lt_self (Nat.succ_pos n) (by omega)) c h
      · rcases List.mem_singleton.mp h with rfl
        exact ⟨(n + 1) % 10, Nat.mod_lt _ (by omega), rfl⟩

theorem natDigits_chars (n : Nat) : ∀ c ∈ natDigits n,
    ∃ r : Nat, r < 10 ∧ c = Char.ofNat (48 + r) := by
  intro c hc
  unfold natDigits at hc
  by_cases h : n = 0
  · rw [if_pos h] at hc
    rcases List.mem_singleton.mp (by simpa [S] using hc) with rfl
    exact ⟨0, by omega, rfl⟩
  · rw [if_neg h] at hc
    exact natDigitsAux_chars n c hc

theorem digitChar_not_alpha {r : Nat} (hr : r < 10) :
    (Char.ofNat (48 + r)).isAlpha = false := by
  interval_cases r <;> decide

theorem natDigits_not_alpha (n : Nat) : ∀ c ∈ natDigits n, c.isAlpha = false := by
  intro c hc
  obtain ⟨r, hr, rfl⟩ := natDigits_chars n c hc
  exact digitChar_not_alpha hr

theorem digitChar_val {r : Nat} (hr : r < 10) : (Char.ofNat (48 + r)).toNat = 48 + r := by
  interval_cases r <;> decide

theorem decode_natDigitsAux : ∀ n : Nat,
    (natDigitsAux n).foldl (fun acc c => acc * 10 + (c.toNat - 48)) 0 = n := by
  intro n
  induction n using Nat.strong_induction_on with
  | _ n ih =>
    rcases n with _ | n
    · rfl
    · rw [natDigitsAux_succ, List.foldl_append,
        ih ((n + 1) / 10) (Nat.div_lt_self (Nat.succ_pos n) (by omega))]
      simp only [List.foldl_cons, List.foldl_nil]
      rw [digitChar_val (Nat.mod_lt _ (show 0 < 10 by omega))]
      omega

theorem decode_natDigits (n : Nat) :
    (natDigits n).foldl (fun acc c => acc * 10 + (c.toNat - 48)) 0 = n := by
  unfold natDigits
  by_cases h : n = 0
  · subst h; decide
  · rw [if_neg h]; exact decode_natDigitsAux n

theorem natDigits_injective {a b : Nat} (h : natDigits a = natDigits b) : a = b := by
  have ha := decode_natDigits a
  have hb := decode_natDigits b
  rw [h] at ha
  exact ha.symm.trans hb

/-- The parsed value of a cell element produced by `_build_sheet_xml`, for
non-absent, non-empty cells. -/
theorem parse_cell_roundtrip (colRef : Str) (shared : List Str) :
    (∀ b : Bool, _parse_cell (.mk (S "c") [(S "r", colRef), (S "t", S "b")] none
        [.mk (S "v") [] (some (if b then S "1" else S "0")) []]) shared = some (.b b)) ∧
    (∀ v : Str, _parse_cell (.mk (S "c") [(S "r", colRef), (S "t", S "inlineStr")] none
        [.mk (S "is") [] none [.mk (S "t") [] (some v) []]]) shared = some (.s v)) := by
  constructor
  · intro b
    cases b <;>
      simp [_parse_cell, xmlAttr, dictGet_cons, XmlElem.attrs, XmlElem.tag, XmlElem.text,
        XmlElem.children, findText, findChild, List.find?, S, dictGet, Cell.b.injEq]
  · intro v
    simp [_parse_cell, xmlAttr, dictGet_cons, XmlElem.attrs, XmlElem.tag, XmlElem.text,
      XmlElem.children, findText, findChild, List.find?, S, dictGet]

/-- The in-loop dictionary of `parseSheetRow` after folding a dense row of
cells with 1-based consecutive column indices. -/
theorem parseRow_fold_spec :
    ∀ (row : List CellV) (start : Nat) (m0 : List (Nat × CellV)) (mx0 : Nat),
      (∀ j, dictGet ((row.enumFrom start).foldl
          (fun st (jc : Nat × CellV) => (dictInsert st.1 jc.1 jc.2, max st.2 jc.1))
          (m0, mx0)).1 j =
        if start ≤ j ∧ j < start + row.length then some (row.getD (j - start) none)
        else dictGet m0 j) ∧
      ((row.enumFrom start).foldl
          (fun st (jc : Nat × CellV) => (dictInsert st.1 jc.1 jc.2, max st.2 jc.1))
          (m0, mx0)).2 =
        (if row.length = 0 then mx0 else max mx0 (start + row.length - 1)) := by
  intro row
  induction row with
  | nil =>
    intro start m0 mx0
    refine ⟨fun j => ?_, ?_⟩
    · rw [if_neg (by simp)]
      rfl
    · simp [List.enumFrom]
  | cons c rest ih =>
    intro start m0 mx0
    rw [List.enumFrom, List.foldl_cons]
    obtain ⟨ih1, ih2⟩ := ih (start + 1) (dictInsert m0 start c) (max mx0 start)
    constructor
    · intro j
      rw [ih1 j]
      simp only [List.length_cons]
      by_cases hj : start + 1 ≤ j ∧ j < start + 1 + rest.length
      · rw [if_pos hj, if_pos (by omega)]
        have heq : j - start = (j - (start + 1)) + 1 := by omega
        rw [heq]
        rfl
      · rw [if_neg hj, dictGet_dictInsert]
        by_cases hjs : j = start
        · subst hjs
          rw [if_pos rfl, if_pos (by omega)]
          rw [Nat.sub_self]
          rfl
        · rw [if_neg hjs, if_neg (by omega)]
    · rw [ih2]
      simp only [List.length_cons]
      rcases Nat.eq_zero_or_pos rest.length with hz | hp
      · rw [hz, if_pos rfl, if_neg (by omega)]
        omega
      · rw [if_neg (by omega), if_neg (by omega)]
        omega

theorem range'_map_getD (row : List CellV) :
    ∀ s : Nat, (List.range' s row.length).map (fun i => row.getD (i - s) none) = row := by
  induction row with
  | nil => intro s; simp
  | cons c rest ih =>
    intro s
    rw [List.length_cons, List.range'_succ, List.map_cons, Nat.sub_self]
    refine congrArg₂ _ rfl ?_
    rw [List.map_congr_left (g := fun i => rest.getD (i - (s + 1)) none), ih (s + 1)]
    intro i hi
    have hge : s + 1 ≤ i := (List.mem_range'_1.mp hi).1
    have : i - s = (i - (s + 1)) + 1 := by omega
    rw [this]
    rfl

/-- The cell builder used by `_build_sheet_xml` for one (1-based column,
cell) pair of a row with reference digits `rd`. -/
def mkCellElem (rd : Str) (ci : Nat × CellV) : Option XmlElem :=
  match ci.2 with
  | none => none
  | some (.s []) => none
  | some (.b b) =>
    some (.mk (S "c")
      [(S "r", _column_letter ci.1 ++ rd), (S "t", S "b")] none
      [.mk (S "v") [] (some (if b then S "1" else S "0")) []])
  | some (.s v) =>
    some (.mk (S "c")
      [(S "r", _column_letter ci.1 ++ rd), (S "t", S "inlineStr")] none
      [.mk (S "is") [] none [.mk (S "t") [] (some v) []]])

theorem cells_fold_eq_abstract (shared : List Str) (rd : Str)
    (hrd : ∀ c ∈ rd, c.isAlpha = false) :
    ∀ (row : List CellV) (start : Nat), 1 ≤ start →
      (∀ cell ∈ row, ¬ cell = none ∧ ¬ cell = some (.s [])) →
      ∀ (m0 : List (Nat × CellV)) (mx0 : Nat),
      ((row.enumFrom start).filterMap (mkCellElem rd)).foldl
        (fun (st : List (Nat × CellV) × Nat) cell =>
          (dictInsert st.1 (_column_index (xmlAttr cell (S "r"))) (_parse_cell cell shared),
            max st.2 (_column_index (xmlAttr cell (S "r")))))
        (m0, mx0)
      = (row.enumFrom start).foldl
          (fun st (jc : Nat × CellV) => (dictInsert st.1 jc.1 jc.2, max st.2 jc.1))
          (m0, mx0) := by
  intro row
  induction row with
  | nil => intro start _ _ m0 mx0; rfl
  | cons c rest ih =>
    intro start hs h m0 mx0
    have hc := h c (List.mem_cons_self c rest)
    have hrest : ∀ cell ∈ rest, ¬ cell = none ∧ ¬ cell = some (.s []) :=
      fun cell hcell => h cell (List.mem_cons_of_mem c hcell)
    rw [List.enumFrom]
    match c, hc with
    | none, hc => exact absurd rfl hc.1
    | some (.s []), hc => exact absurd rfl hc.2
    | some (.b b), _ =>
      rw [List.filterMap_cons]
      simp only [mkCellElem, List.foldl_cons]
      rw [show xmlAttr
          (XmlElem.mk (S "c") [(S "r", _column_letter start ++ rd), (S "t", S "b")] none
            [.mk (S "v") [] (some (if b then S "1" else S "0")) []]) (S "r")
          = some (_column_letter start ++ rd) by simp [xmlAttr, XmlElem.attrs, dictGet_cons]]
      rw [column_index_letter_suffix rd hs hrd, (parse_cell_roundtrip _ shared).1 b]
      exact ih (start + 1) (by omega) hrest _ _
    | some (.s (ch :: v)), _ =>
      rw [List.filterMap_cons]
      simp only [mkCellElem, List.foldl_cons]
      rw [show xmlAttr
          (XmlElem.mk (S "c") [(S "r", _column_letter start ++ rd), (S "t", S "inlineStr")] none
            [.mk (S "is") [] none [.mk (S "t") [] (some (ch :: v)) []]]) (S "r")
          = some (_column_letter start ++ rd) by simp [xmlAttr, XmlElem.attrs, dictGet_cons]]
      rw [column_index_letter_suffix rd hs hrd, (parse_cell_roundtrip _ shared).2 (ch :: v)]
      exact ih (start + 1) (by omega) hrest _ _

theorem filter_c_filterMap_mkCellElem (rd : Str) (l : List (Nat × CellV)) :
    (l.filterMap (mkCellElem rd)).filter (fun c => c.tag = S "c")
      = l.filterMap (mkCellElem rd) := by
  rw [List.filter_eq_self]
  intro e he
  obtain ⟨ci, _, hci⟩ := List.mem_filterMap.mp he
  rcases ci with ⟨j, cv⟩
  match cv, hci with
  | some (.b b), hci =>
    simp only [mkCellElem] at hci
    rcases Option.some_inj.mp hci with rfl
    simp [XmlElem.tag]
  | some (.s (ch :: v)), hci =>
    simp only [mkCellElem] at hci
    rcases Option.some_inj.mp hci with rfl
    simp [XmlElem.tag]

/-- `parseSheetRow` recovers a row written by `_build_sheet_xml` when every
cell is present and not the empty string. -/
theorem parseSheetRow_roundtrip (shared : List Str) (rowIdx : Nat) (row : List CellV)
    (h : ∀ cell ∈ row, ¬ cell = none ∧ ¬ cell = some (.s [])) :
    parseSheetRow shared
      (.mk (S "row") [(S "r", natDigits rowIdx)] none
        ((row.enumFrom 1).filterMap (mkCellElem (natDigits rowIdx))))
      = row := by
  unfold parseSheetRow
  simp only [XmlElem.children]
  rw [filter_c_filterMap_mkCellElem]
  rw [cells_fold_eq_abstract shared (natDigits rowIdx) (natDigits_not_alpha rowIdx) row 1
    (by omega) h [] 0]
  obtain ⟨hmap, hmax⟩ := parseRow_fold_spec row 1 [] 0
  rw [hmax]
  by_cases hz : row.length = 0
  · rw [hz]
    simp only [if_pos rfl]
    exact (List.length_eq_zero.mp hz).symm
  · have hmv : max 0 (1 + row.length - 1) = row.length := by omega
    rw [if_neg hz, hmv, if_neg hz]
    rw [List.map_congr_left (g := fun i => row.getD (i - 1) none)]
    · exact range'_map_getD row 1
    · intro i hi
      have hb := List.mem_range'_1.mp hi
      rw [hmap i, if_pos (by omega)]
      rfl

/-- A string with the given prefix differs from any string with a different
`take n` prefix. -/
theorem append_take_ne {p q : Str} (rest : Str) (n : Nat) (hlen : n ≤ p.length)
    (hne : ¬ p.take n = q.take n) : ¬ (p ++ rest = q) := by
  intro h
  apply hne
  rw [← h, List.take_append_of_le_length hlen]

theorem dictGet_append {κ α : Type} [DecidableEq κ] (l1 l2 : List (κ × α)) (k : κ) :
    dictGet (l1 ++ l2) k = (dictGet l1 k).or (dictGet l2 k) := by
  unfold dictGet
  rw [List.find?_append]
  cases l1.find? (fun p => p.1 = k) <;> simp

theorem dictInsert_eq_append {κ α : Type} [DecidableEq κ] {m : List (κ × α)} {k : κ} (v : α)
    (h : ¬ k ∈ m.map Prod.fst) : dictInsert m k v = m ++ [(k, v)] := by
  unfold dictInsert
  have hnc : ¬ ((m.map Prod.fst).contains k = true) := by
    simpa using h
  rw [if_neg hnc]

theorem find?_unique {α : Type} {p : α → Bool} {l : List α} {a : α} (ha : a ∈ l)
    (hpa : p a = true) (huniq : ∀ b ∈ l, p b = true → b = a) :
    l.find? p = some a := by
  induction l with
  | nil => simp at ha
  | cons x l ih =>
    rw [List.find?]
    by_cases hx : p x = true
    · rw [hx]
      rw [huniq x (List.mem_cons_self x l) hx]
    · rw [Bool.not_eq_true] at hx
      rw [hx]
      rcases List.mem_cons.mp ha with rfl | hmem
      · rw [hpa] at hx
        simp at hx
      · exact ih hmem (fun b hb hpb => huniq b (List.mem_cons_of_mem x hb) hpb)

theorem enumFrom_unique {α : Type} {l : List α} {s i : Nat} {x y : α}
    (hx : (i, x) ∈ l.enumFrom s) (hy : (i, y) ∈ l.enumFrom s) : x = y := by
  obtain ⟨_, _, hx3⟩ := List.mem_enumFrom hx
  obtain ⟨_, _, hy3⟩ := List.mem_enumFrom hy
  rw [hx3, hy3]

/-- The relationship id key of sheet `i` in the written package. -/
theorem rid_key_injective {i j : Nat} (h : S "rId" ++ natDigits i = S "rId" ++ natDigits j) :
    i = j :=
  natDigits_injective (List.append_cancel_left h)

/-- The worksheet part path of sheet `i` in the written package. -/
theorem sheet_path_injective {i j : Nat}
    (h : S "xl/worksheets/sheet" ++ natDigits i ++ S ".xml"
       = S "xl/worksheets/sheet" ++ natDigits j ++ S ".xml") : i = j :=
  natDigits_injective (List.append_cancel_left (List.append_cancel_right h))

theorem find?_sheet_entries_none (sheets : List (Str × List (List CellV))) (k : Str)
    (hk : ∀ rest : Str, ¬ (S "xl/worksheets/sheet" ++ rest = k)) :
    ((sheets.enumFrom 1).map (fun e =>
      (S "xl/worksheets/sheet" ++ natDigits e.1 ++ S ".xml",
        Entry.xml (_build_sheet_xml e.2.2)))).find? (fun p => p.1 = k) = none := by
  rw [List.find?_eq_none]
  intro p hp
  obtain ⟨e, _, rfl⟩ := List.mem_map.mp hp
  simp only [decide_eq_true_eq]
  rw [List.append_assoc]
  exact hk _

/-- The archive listing produced by `_write_workbook`. -/
def writerEntries (sheets : List (Str × List (List CellV))) : List (Str × Entry) :=
  [(S "[Content_Types].xml", .xml (_build_content_types sheets.length)),
   (S "_rels/.rels", .xml _build_root_rels)] ++
    (sheets.enumFrom 1).map (fun e =>
      (S "xl/worksheets/sheet" ++ natDigits e.1 ++ S ".xml", .xml (_build_sheet_xml e.2.2))) ++
    [(S "xl/workbook.xml",
      .xml (_build_workbook_xml ((sheets.enumFrom 1).map (fun e => (e.1, e.2.1))))),
     (S "xl/_rels/workbook.xml.rels",
      .xml (_build_workbook_relationships sheets.length))]

theorem write_workbook_eq (sheets : List (Str × List (List CellV))) :
    _write_workbook sheets = .entries (writerEntries sheets) := rfl

theorem dictGet_cons_pair {κ α : Type} [DecidableEq κ] (k1 : κ) (v1 : α)
    (m : List (κ × α)) (k : κ) :
    dictGet ((k1, v1) :: m) k = if k1 = k then some v1 else dictGet m k :=
  dictGet_cons (k1, v1) m k

theorem dictGet_writerEntries_wb (sheets : List (Str × List (List CellV))) :
    dictGet (writerEntries sheets) (S "xl/workbook.xml")
      = some (.xml (_build_workbook_xml ((sheets.enumFrom 1).map (fun e => (e.1, e.2.1))))) := by
  unfold writerEntries
  rw [dictGet_append, dictGet_append]
  rw [dictGet_cons_pair, if_neg (by decide), dictGet_cons_pair, if_neg (by decide), dictGet_nil]
  have h2 : dictGet ((sheets.enumFrom 1).map (fun e =>
      (S "xl/worksheets/sheet" ++ natDigits e.1 ++ S ".xml",
        Entry.xml (_build_sheet_xml e.2.2)))) (S "xl/workbook.xml") = none := by
    unfold dictGet
    rw [find?_sheet_entries_none sheets (S "xl/workbook.xml")
      (fun rest => append_take_ne rest 8 (by decide) (by decide))]
    rfl
  rw [h2, dictGet_cons_pair, if_pos rfl]
  rfl

theorem dictGet_writerEntries_rels (sheets : List (Str × List (List CellV))) :
    dictGet (writerEntries sheets) (S "xl/_rels/workbook.xml.rels")
      = some (.xml (_build_workbook_relationships sheets.length)) := by
  unfold writerEntries
  rw [dictGet_append, dictGet_append]
  rw [dictGet_cons_pair, if_neg (by decide), dictGet_cons_pair, if_neg (by decide), dictGet_nil]
  have h2 : dictGet ((sheets.enumFrom 1).map (fun e =>
      (S "xl/worksheets/sheet" ++ natDigits e.1 ++ S ".xml",
        Entry.xml (_build_sheet_xml e.2.2)))) (S "xl/_rels/workbook.xml.rels") = none := by
    unfold dictGet
    rw [find?_sheet_entries_none sheets (S "xl/_rels/workbook.xml.rels")
      (fun rest => append_take_ne rest 4 (by decide) (by decide))]
    rfl
  rw [h2, dictGet_cons_pair, if_neg (by decide), dictGet_cons_pair, if_pos rfl]
  rfl

theorem dictGet_writerEntries_shared (sheets : List (Str × List (List CellV))) :
    dictGet (writerEntries sheets) (S "xl/sharedStrings.xml") = none := by
  unfold writerEntries
  rw [dictGet_append, dictGet_append]
  rw [dictGet_cons_pair, if_neg (by decide), dictGet_cons_pair, if_neg (by decide), dictGet_nil]
  have h2 : dictGet ((sheets.enumFrom 1).map (fun e =>
      (S "xl/worksheets/sheet" ++ natDigits e.1 ++ S ".xml",
        Entry.xml (_build_sheet_xml e.2.2)))) (S "xl/sharedStrings.xml") = none := by
    unfold dictGet
    rw [find?_sheet_entries_none sheets (S "xl/sharedStrings.xml")
      (fun rest => append_take_ne rest 4 (by decide) (by decide))]
    rfl
  rw [h2, dictGet_cons_pair, if_neg (by decide), dictGet_cons_pair, if_neg (by decide),
    dictGet_nil]
  rfl

theorem dictGet_writerEntries_sheet (sheets : List (Str × List (List CellV)))
    {i : Nat} {name : Str} {grid : List (List CellV)}
    (hmem : (i, (name, grid)) ∈ sheets.enumFrom 1) :
    dictGet (writerEntries sheets) (S "xl/worksheets/sheet" ++ natDigits i ++ S ".xml")
      = some (.xml (_build_sheet_xml grid)) := by
  unfold writerEntries
  rw [dictGet_append, dictGet_append]
  have hne1 : ∀ q : Str, q.take 1 = S "[" ∨ q.take 1 = S "_" →
      ¬ (q = S "xl/worksheets/sheet" ++ natDigits i ++ S ".xml") := by
    intro q hq h
    have ht : (S "xl/worksheets/sheet" ++ natDigits i ++ S ".xml").take 1 = q.take 1 := by
      rw [h]
    rw [List.append_assoc, List.take_append_of_le_length (by decide)] at ht
    rcases hq with hq | hq <;> rw [hq] at ht <;> exact absurd ht (by decide)
  rw [dictGet_cons_pair, if_neg (hne1 _ (Or.inl (by decide))),
    dictGet_cons_pair, if_neg (hne1 _ (Or.inr (by decide))), dictGet_nil]
  have h2 : dictGet ((sheets.enumFrom 1).map (fun e =>
      (S "xl/worksheets/sheet" ++ natDigits e.1 ++ S ".xml",
        Entry.xml (_build_sheet_xml e.2.2))))
      (S "xl/worksheets/sheet" ++ natDigits i ++ S ".xml")
      = some (.xml (_build_sheet_xml grid)) := by
    unfold dictGet
    rw [find?_unique (a := (S "xl/worksheets/sheet" ++ natDigits i ++ S ".xml",
        Entry.xml (_build_sheet_xml grid)))
      (List.mem_map.mpr ⟨(i, (name, grid)), hmem, rfl⟩) (by simp) ?uniq]
    · rfl
    case uniq =>
      intro b hb hkey
      obtain ⟨⟨j, n2, g2⟩, he, rfl⟩ := List.mem_map.mp hb
      simp only [decide_eq_true_eq] at hkey
      obtain rfl : j = i := sheet_path_injective hkey
      have hp : (n2, g2) = (name, grid) := enumFrom_unique he hmem
      rw [Prod.mk.injEq] at hp
      rw [hp.2]
  rw [h2]
  rfl

/-- Parsing a sheet part written by `_build_sheet_xml` yields the original
grid when every cell is present and not the empty string. -/
theorem build_sheet_parses (grid : List (List CellV))
    (h : ∀ row ∈ grid, ∀ cell ∈ row, ¬ cell = none ∧ ¬ cell = some (.s [])) :
    (((_build_sheet_xml grid).children.filter (fun e => e.tag = S "sheetData")).flatMap
      (fun sd => sd.children.filter (fun r => r.tag = S "row"))).map (parseSheetRow [])
    = grid := by
  have hchildren : (_build_sheet_xml grid).children.filter (fun e => e.tag = S "sheetData")
      = [.mk (S "sheetData") [] none
          ((grid.enumFrom 1).map (fun ri =>
            .mk (S "row") [(S "r", natDigits ri.1)] none
              ((ri.2.enumFrom 1).filterMap (mkCellElem (natDigits ri.1)))))] := by
    rfl
  rw [hchildren, List.flatMap_cons, List.flatMap_nil, List.append_nil]
  have hrows : (XmlElem.mk (S "sheetData") [] none
      ((grid.enumFrom 1).map (fun ri =>
        .mk (S "row") [(S "r", natDigits ri.1)] none
          ((ri.2.enumFrom 1).filterMap (mkCellElem (natDigits ri.1)))))).children.filter
        (fun r => r.tag = S "row")
      = (grid.enumFrom 1).map (fun ri =>
          .mk (S "row") [(S "r", natDigits ri.1)] none
            ((ri.2.enumFrom 1).filterMap (mkCellElem (natDigits ri.1)))) := by
    rw [XmlElem.children, List.filter_eq_self]
    intro e he
    obtain ⟨ri, _, rfl⟩ := List.mem_map.mp he
    simp [XmlElem.tag]
  rw [hrows, List.map_map]
  have hpoint : ∀ ri ∈ grid.enumFrom 1,
      (parseSheetRow [] ∘ fun ri =>
        XmlElem.mk (S "row") [(S "r", natDigits ri.1)] none
          ((ri.2.enumFrom 1).filterMap (mkCellElem (natDigits ri.1)))) ri = Prod.snd ri := by
    intro ri hri
    obtain ⟨idx, row⟩ := ri
    have hrow : row ∈ grid := by
      obtain ⟨_, _, h3⟩ := List.mem_enumFrom hri
      rw [h3]
      exact List.getElem_mem _
    exact parseSheetRow_roundtrip [] idx row (h row hrow)
  rw [List.map_congr_left hpoint, List.enumFrom_map_snd]

/-- The sheet loop of the reader over the writer's workbook entries, with a
prefix accumulator. -/
theorem sheetsLoop_writer (fs : List (Str × Entry)) (relationships : List (Str × Str)) :
    ∀ (l : List (Nat × (Str × List (List CellV)))) (acc : List (Str × List (List CellV))),
      (∀ p ∈ l, 1 ≤ p.1 ∧
        dictGet relationships (S "rId" ++ natDigits p.1)
          = some (S "worksheets/sheet" ++ natDigits p.1 ++ S ".xml") ∧
        dictGet fs (S "xl/worksheets/sheet" ++ natDigits p.1 ++ S ".xml")
          = some (.xml (_build_sheet_xml p.2.2)) ∧
        (∀ row ∈ p.2.2, ∀ cell ∈ row, ¬ cell = none ∧ ¬ cell = some (.s []))) →
      (l.map (fun p => p.2.1)).Nodup →
      (∀ p ∈ l, ¬ p.2.1 ∈ acc.map Prod.fst) →
      sheetsLoop fs [] relationships
        (l.map (fun p =>
          XmlElem.mk (S "sheet")
            [(S "name", p.2.1), (S "sheetId", natDigits p.1),
             (S "r:id", S "rId" ++ natDigits p.1)] none []))
        acc
      = .ok (acc ++ l.map (fun p => (p.2.1, p.2.2))) := by
  intro l
  induction l with
  | nil => intro acc _ _ _; simp [sheetsLoop]
  | cons p rest ih =>
    intro acc hp hnd hacc
    obtain ⟨hp1, hprel, hppart, hpcells⟩ := hp p (List.mem_cons_self p rest)
    rw [List.map_cons, sheetsLoop]
    have hname : xmlAttr (XmlElem.mk (S "sheet")
        [(S "name", p.2.1), (S "sheetId", natDigits p.1),
         (S "r:id", S "rId" ++ natDigits p.1)] none []) (S "name") = some p.2.1 := by
      simp [xmlAttr, XmlElem.attrs, dictGet_cons_pair]
    have hrid : xmlAttr (XmlElem.mk (S "sheet")
        [(S "name", p.2.1), (S "sheetId", natDigits p.1),
         (S "r:id", S "rId" ++ natDigits p.1)] none []) (S "r:id")
        = some (S "rId" ++ natDigits p.1) := by
      simp [xmlAttr, XmlElem.attrs, dictGet_cons_pair, S]
    rw [hname, hrid]
    dsimp only
    rw [hprel]
    dsimp only
    have htgt_ne : ¬ (S "worksheets/sheet" ++ natDigits p.1 ++ S ".xml" = []) := by
      rw [List.append_assoc]
      intro hx
      have := congrArg List.length hx
      simp [S] at this
    rw [if_neg htgt_ne]
    have hhead : (S "worksheets/sheet" ++ natDigits p.1 ++ S ".xml").head? = some 'w' := by
      rw [List.append_assoc]
      rfl
    rw [hhead, if_neg (by decide)]
    have hpath : S "xl/" ++ (S "worksheets/sheet" ++ natDigits p.1 ++ S ".xml")
        = S "xl/worksheets/sheet" ++ natDigits p.1 ++ S ".xml" := by
      rw [List.append_assoc, ← List.append_assoc (S "xl/"),
        show S "xl/" ++ S "worksheets/sheet" = S "xl/worksheets/sheet" by rfl,
        List.append_assoc]
    rw [hpath]
    rw [show _parse_sheet fs (S "xl/worksheets/sheet" ++ natDigits p.1 ++ S ".xml") []
        = .ok p.2.2 by
      unfold _parse_sheet
      rw [hppart]
      dsimp only
      rw [build_sheet_parses p.2.2 hpcells]]
    dsimp only
    rw [dictInsert_eq_append _ (hacc p (List.mem_cons_self p rest))]
    rw [ih (acc ++ [(p.2.1, p.2.2)])
      (fun q hq => hp q (List.mem_cons_of_mem p hq))
      ((List.nodup_cons.mp (show (p.2.1 :: rest.map (fun q => q.2.1)).Nodup from hnd)).2)
      ?fresh]
    · rw [List.map_cons, List.append_assoc]
      rfl
    case fresh =>
      intro q hq
      rw [List.map_append]
      simp only [List.mem_append]
      rintro (hmem | hmem)
      · exact hacc q (List.mem_cons_of_mem p hq) hmem
      · have hne : q.2.1 ≠ p.2.1 := by
          have hnd2 := List.nodup_cons.mp
            (show (p.2.1 :: rest.map (fun q => q.2.1)).Nodup from hnd)
          intro hx
          exact hnd2.1 (hx ▸ List.mem_map.mpr ⟨q, hq, rfl⟩)
        simp only [List.map_cons, List.map_nil, List.mem_singleton] at hmem
        exact hne hmem

/-- Every `Relationship` child the writer emits carries the
package/2006/relationships expanded name, which the reader query for the
officeDocument/2006/relationships expanded name never matches. -/
theorem writer_rels_unseen (n : Nat) :
    (_build_workbook_relationships n).children.filter
      (fun e => e.tag = _REL_QUERY_TAG) = [] := by
  rw [_build_workbook_relationships, XmlElem.children, List.filter_eq_nil_iff]
  intro e he
  obtain ⟨i, _, rfl⟩ := List.mem_map.mp he
  simp only [decide_eq_true_eq]
  show ¬ (_REL_WRITTEN_TAG = _REL_QUERY_TAG)
  decide

/-- With an empty relationship dict every declared sheet that carries its
`name` and `r:id` attributes is silently skipped. -/
theorem sheetsLoop_no_rels (fs : List (Str × Entry)) (shared : List Str) :
    ∀ (elems : List XmlElem) (acc : List (Str × List (List CellV))),
      (∀ e ∈ elems, (xmlAttr e (S "name")).isSome ∧ (xmlAttr e (S "r:id")).isSome) →
      sheetsLoop fs shared [] elems acc = .ok acc := by
  intro elems
  induction elems with
  | nil =>
    intro acc _
    rfl
  | cons e rest ih =>
    intro acc hattrs
    obtain ⟨hn, hr⟩ := hattrs e (List.mem_cons_self e rest)
    obtain ⟨name, hname⟩ := Option.isSome_iff_exists.mp hn
    obtain ⟨rid, hrid⟩ := Option.isSome_iff_exists.mp hr
    rw [sheetsLoop, hname]
    dsimp only
    rw [hrid]
    dsimp only
    rw [dictGet_nil]
    exact ih acc (fun e2 he2 => hattrs e2 (List.mem_cons_of_mem e he2))

/-- **C2** counterexample: the claimed Writer→Reader roundtrip fails on a
one-sheet workbook.  The relationship part written by the writer declares
the package/2006/relationships default namespace while the `findall` of the
reader queries the officeDocument/2006/relationships namespace, so the
reader resolves no relationship, skips the declared sheet, and returns the
empty sheet map instead of the written mapping. -/
theorem C2_counterexample :
    _load_sheet_map (_write_workbook [(S "Quizzes", [[some (Cell.s (S "Title"))]])])
      = .ok [] ∧
    ¬ (([] : List (Str × List (List CellV)))
      = [(S "Quizzes", [[some (Cell.s (S "Title"))]])]) := by
  decide

/-- **C2** (corrected): the Writer→Reader roundtrip is broken for every
input.  The writer emits its `Relationship` children in the
package/2006/relationships namespace but the reader queries the
officeDocument/2006/relationships namespace, so the relationship dict is
always empty, every declared sheet is silently skipped, `_load_sheet_map`
returns the empty sheet map, and `parse_workbook` degrades to an empty
`ParsedWorkbook` carrying the three sheet-not-found warnings. -/
theorem C2_write_read_broken (sheets : List (Str × List (List CellV))) :
    _load_sheet_map (_write_workbook sheets) = .ok [] ∧
    parse_workbook (_write_workbook sheets)
      = .ok ⟨[], [], [],
        [S "Categories sheet not found. Expected a sheet named \x27Categories\x27.",
         S "Quizzes sheet not found. Expected a sheet named \x27Quizzes\x27.",
         S "Questions sheet not found. Expected a sheet named \x27Questions\x27."]⟩ := by
  have h1 : _load_sheet_map (_write_workbook sheets) = .ok [] := by
    rw [write_workbook_eq, _load_sheet_map]
    have hwb : readXml (writerEntries sheets) (S "xl/workbook.xml")
        = .ok (_build_workbook_xml ((sheets.enumFrom 1).map (fun e => (e.1, e.2.1)))) := by
      unfold readXml
      rw [dictGet_writerEntries_wb]
    have hrl : readXml (writerEntries sheets) (S "xl/_rels/workbook.xml.rels")
        = .ok (_build_workbook_relationships sheets.length) := by
      unfold readXml
      rw [dictGet_writerEntries_rels]
    rw [hwb, hrl]
    simp only [Bind.bind, Except.bind]
    rw [writer_rels_unseen]
    rw [show buildRels [] = .ok [] from rfl]
    have hshared : _parse_shared_strings (writerEntries sheets) = .ok [] := by
      unfold _parse_shared_strings
      rw [dictGet_writerEntries_shared]
    rw [hshared]
    have hsheetelems : (_build_workbook_xml
          ((sheets.enumFrom 1).map (fun e => (e.1, e.2.1)))).children.filter
        (fun e => e.tag = S "sheets")
        = [.mk (S "sheets") [] none
            (((sheets.enumFrom 1).map (fun e => (e.1, e.2.1))).map (fun e =>
              .mk (S "sheet")
                [(S "name", e.2), (S "sheetId", natDigits e.1),
                 (S "r:id", S "rId" ++ natDigits e.1)] none []))] := rfl
    rw [hsheetelems, List.flatMap_cons, List.flatMap_nil, List.append_nil]
    have hsheetfilter : (XmlElem.mk (S "sheets") [] none
        (((sheets.enumFrom 1).map (fun e => (e.1, e.2.1))).map (fun e =>
          .mk (S "sheet")
            [(S "name", e.2), (S "sheetId", natDigits e.1),
             (S "r:id", S "rId" ++ natDigits e.1)] none []))).children.filter
          (fun e => e.tag = S "sheet")
        = (sheets.enumFrom 1).map (fun p =>
            .mk (S "sheet")
              [(S "name", p.2.1), (S "sheetId", natDigits p.1),
               (S "r:id", S "rId" ++ natDigits p.1)] none []) := by
      rw [XmlElem.children, List.map_map]
      have hfuse : ((fun (e : Nat × Str) =>
          XmlElem.mk (S "sheet")
            [(S "name", e.2), (S "sheetId", natDigits e.1),
             (S "r:id", S "rId" ++ natDigits e.1)] none []) ∘
          (fun (e : Nat × (Str × List (List CellV))) => (e.1, e.2.1)))
          = (fun (p : Nat × (Str × List (List CellV))) =>
              XmlElem.mk (S "sheet")
                [(S "name", p.2.1), (S "sheetId", natDigits p.1),
                 (S "r:id", S "rId" ++ natDigits p.1)] none []) := by
        funext p
        rfl
      rw [hfuse, List.filter_eq_self]
      intro e he
      obtain ⟨i, _, rfl⟩ := List.mem_map.mp he
      simp [XmlElem.tag]
    rw [hsheetfilter]
    dsimp only
    have hloop := sheetsLoop_no_rels (writerEntries sheets) []
      ((sheets.enumFrom 1).map (fun p =>
        XmlElem.mk (S "sheet")
          [(S "name", p.2.1), (S "sheetId", natDigits p.1),
           (S "r:id", S "rId" ++ natDigits p.1)] none []))
      []
      (by
        intro e he
        obtain ⟨p, _, rfl⟩ := List.mem_map.mp he
        constructor
        · have hname : xmlAttr (XmlElem.mk (S "sheet")
              [(S "name", p.2.1), (S "sheetId", natDigits p.1),
               (S "r:id", S "rId" ++ natDigits p.1)] none []) (S "name") = some p.2.1 := by
            simp [xmlAttr, XmlElem.attrs, dictGet_cons_pair]
          rw [hname]
          rfl
        · have hrid : xmlAttr (XmlElem.mk (S "sheet")
              [(S "name", p.2.1), (S "sheetId", natDigits p.1),
               (S "r:id", S "rId" ++ natDigits p.1)] none []) (S "r:id")
              = some (S "rId" ++ natDigits p.1) := by
            simp [xmlAttr, XmlElem.attrs, dictGet_cons_pair, S]
          rw [hrid]
          rfl)
    rw [hloop]
  refine ⟨h1, ?_⟩
  unfold parse_workbook
  rw [h1]
  rfl

/-! ## Cross-tenant conflicts in the preview (C3) -/

theorem quizzesLoop_errors (headers : List Str) :
    ∀ (l : List (Nat × List CellV)), ∀ q ∈ quizzesLoop headers l,
      q.errors = [] ∨ q.errors = [S "Quiz title is required."] := by
  intro l
  induction l with
  | nil => intro q hq; simp [quizzesLoop] at hq
  | cons p rest ih =>
    obtain ⟨ri, values⟩ := p
    intro q hq
    simp only [quizzesLoop] at hq
    split at hq
    · split at hq
      · exact ih q hq
      · rcases List.mem_cons.mp hq with rfl | hmem
        · right; rfl
        · exact ih q hmem
    · rcases List.mem_cons.mp hq with rfl | hmem
      · left; rfl
      · exact ih q hmem

theorem questionsLoop_errors_mem (headers : List Str) :
    ∀ (l : List (Nat × List CellV)), ∀ q ∈ questionsLoop headers l, ∀ e ∈ q.errors,
      e = S "Question prompt is required." ∨
      e = S "Category name is required for each question." ∨
      e = S "Provide at least two options." ∨
      e = S "Select a correct option." := by
  intro l
  induction l with
  | nil => intro q hq; simp [questionsLoop] at hq
  | cons p rest ih =>
    obtain ⟨ri, values⟩ := p
    intro q hq
    simp only [questionsLoop] at hq
    split at hq
    · exact ih q hq
    · rcases List.mem_cons.mp hq with rfl | hmem
      · intro e he
        dsimp only at he
        rcases List.mem_append.mp he with h | h
        · rcases List.mem_append.mp h with h2 | h2
          · split at h2
            · left; exact (List.mem_singleton.mp h2)
            · simp at h2
          · split at h2
            · right; left; exact (List.mem_singleton.mp h2)
            · simp at h2
        · split at h
          · right; right; left; exact (List.mem_singleton.mp h)
          · split at h
            · right; right; right; exact (List.mem_singleton.mp h)
            · simp at h
      · exact ih q hmem

theorem parse_workbook_quiz_errors {z : ZipData} {wb : ParsedWorkbook}
    (h : parse_workbook z = .ok wb) :
    ∀ q ∈ wb.quizzes, q.errors = [] ∨ q.errors = [S "Quiz title is required."] := by
  unfold parse_workbook at h
  cases hl : _load_sheet_map z with
  | error e => rw [hl] at h; cases e <;> simp at h
  | ok sheet_map =>
    rw [hl] at h
    dsimp only at h
    obtain rfl := Except.ok.inj h
    dsimp only
    cases _locate_sheet (sheet_map.map Prod.fst) _QUIZ_SHEET_NAMES with
    | none => intro q hq; simp at hq
    | some nm => exact quizzesLoop_errors _ _

theorem parse_workbook_question_errors {z : ZipData} {wb : ParsedWorkbook}
    (h : parse_workbook z = .ok wb) :
    ∀ q ∈ wb.questions, ∀ e ∈ q.errors,
      e = S "Question prompt is required." ∨
      e = S "Category name is required for each question." ∨
      e = S "Provide at least two options." ∨
      e = S "Select a correct option." := by
  unfold parse_workbook at h
  cases hl : _load_sheet_map z with
  | error e => rw [hl] at h; cases e <;> simp at h
  | ok sheet_map =>
    rw [hl] at h
    dsimp only at h
    obtain rfl := Except.ok.inj h
    dsimp only
    cases _locate_sheet (sheet_map.map Prod.fst) _QUESTION_SHEET_NAMES with
    | none => intro q hq; simp at hq
    | some nm => exact questionsLoop_errors_mem _ _

theorem fetch_quiz_map_spec {s : Session} {target : Scope} {k : Str} {q : Quiz}
    (h : dictGet (_fetch_quiz_map s target) k = some q) :
    q ∈ s.pending.quizzes ∧ q.organization_id = target ∧ pyLower (pyStrip q.title) = k := by
  unfold _fetch_quiz_map at h
  rcases dictGet_foldl_insert_mem (fun q : Quiz => pyLower (pyStrip q.title))
      (fun q : Quiz => q) h with ⟨r, hr, hk, hv⟩ | hnil
  · obtain ⟨hmem, horg⟩ := List.mem_filter.mp hr
    subst hv
    exact ⟨hmem, by simpa using horg, hk⟩
  · rw [dictGet_nil] at hnil
    exact absurd hnil (by simp)

theorem fetch_question_map_spec {s : Session} {target : Scope}
    {prompts : Option (List Str)} {k : Str} {q : Question}
    (h : dictGet (_fetch_question_map s target prompts) k = some q) :
    q ∈ s.pending.questions ∧ q.organization_id = target ∧ pyLower (pyStrip q.prompt) = k := by
  unfold _fetch_question_map at h
  rcases dictGet_foldl_insert_mem (fun q : Question => pyLower (pyStrip q.prompt))
      (fun q : Question => q) h with ⟨r, hr, hk, hv⟩ | hnil
  · obtain ⟨hmem, horg⟩ := List.mem_filter.mp hr
    subst hv
    refine ⟨?_, by simpa using horg, hk⟩
    rcases prompts with _ | ps
    · exact hmem
    · dsimp only at hmem
      split at hmem
      · exact hmem
      · split at hmem
        · exact hmem
        · exact (List.mem_filter.mp hmem).1
  · rw [dictGet_nil] at hnil
    exact absurd hnil (by simp)

theorem previewQuizzesLoop_spec (target : Scope) (exq : List (Str × Quiz))
    (avail : List Str)
    (hexq : ∀ k q, dictGet exq k = some q → q.organization_id = target) :
    ∀ (lst : List ParsedQuiz) (counts : List (Str × Nat)),
      (∀ q ∈ lst, q.errors = [] ∨ q.errors = [S "Quiz title is required."]) →
      ∀ rec ∈ previewQuizzesLoop target exq avail lst counts,
        (¬ S "Quiz belongs to another organization." ∈ rec.errors) ∧
        (rec.action = S "update" →
          ∃ q, dictGet exq (pyLower (pyStrip rec.title)) = some q) := by
  intro lst
  induction lst with
  | nil => intro counts _ rec hrec; simp [previewQuizzesLoop] at hrec
  | cons quiz rest ih =>
    intro counts herr rec hrec
    have hq := herr quiz (List.mem_cons_self quiz rest)
    simp only [previewQuizzesLoop] at hrec
    rcases List.mem_cons.mp hrec with rfl | hmem
    · dsimp only
      have hkey : pyLower (if quiz.title = [] then [] else pyStrip quiz.title)
          = pyLower (pyStrip quiz.title) := by
        by_cases ht : quiz.title = []
        · rw [if_pos ht, ht]
          rfl
        · rw [if_neg ht]
      constructor
      · intro hbad
        rcases List.mem_append.mp hbad with h | h
        · rcases List.mem_append.mp h with h2 | h2
          · by_cases ht : pyLower (if quiz.title = [] then [] else pyStrip quiz.title) = []
            · rw [if_neg (not_not_intro ht)] at h2
              rcases List.mem_append.mp h2 with h3 | h3
              · rcases hq with hq | hq <;> rw [hq] at h3
                · simp at h3
                · exact absurd (List.mem_singleton.mp h3) (by decide)
              · exact absurd (List.mem_singleton.mp h3) (by decide)
            · rw [if_pos ht] at h2
              rcases List.mem_append.mp h2 with h3 | h3
              · rcases hq with hq | hq <;> rw [hq] at h3
                · simp at h3
                · exact absurd (List.mem_singleton.mp h3) (by decide)
              · by_cases hdup :
                  (dictGet counts (pyLower (if quiz.title = [] then [] else pyStrip quiz.title))).getD 0 + 1 > 1
                · rw [if_pos hdup] at h3
                  exact absurd (List.mem_singleton.mp h3) (by decide)
                · rw [if_neg hdup] at h3
                  simp at h3
          · by_cases ht : pyLower (if quiz.title = [] then [] else pyStrip quiz.title) = []
            · rw [if_neg (not_not_intro ht)] at h2
              simp at h2
            · rw [if_pos ht] at h2
              cases hval : dictGet exq (pyLower (if quiz.title = [] then [] else pyStrip quiz.title)) with
              | none =>
                rw [hval] at h2
                simp at h2
              | some q =>
                rw [hval] at h2
                split at h2
                · rename_i q2 heq2
                  obtain rfl : q = q2 := Option.some_inj.mp heq2
                  split at h2
                  · rename_i hcond
                    exact hcond (Or.inl (hexq _ _ hval).symm)
                  · simp at h2
                · simp at h2
        · obtain ⟨prompt, _, hp⟩ := List.mem_filterMap.mp h
          split at hp
          · have heqm := Option.some_inj.mp hp
            rw [List.append_assoc] at heqm
            exact append_take_ne
              (prompt ++ S "\x27 is not defined in this import or library.") 3
              (by decide) (by decide) heqm
          · simp at hp
      · intro hupd
        by_cases ht : pyLower (if quiz.title = [] then [] else pyStrip quiz.title) = []
        · rw [if_neg (not_not_intro ht)] at hupd
          simp only [Option.isSome_none, Bool.false_eq_true, if_false] at hupd
          exact absurd hupd (by decide)
        · rw [if_pos ht, hkey] at hupd
          cases hval : dictGet exq (pyLower (pyStrip quiz.title)) with
          | none =>
            rw [hval] at hupd
            simp only [Option.isSome_none, Bool.false_eq_true, if_false] at hupd
            exact absurd hupd (by decide)
          | some q => exact ⟨q, rfl⟩
    · exact ih _ (fun q hq2 => herr q (List.mem_cons_of_mem quiz hq2)) rec hmem

theorem previewQuestionsLoop_spec (target : Scope) (exq : List (Str × Question))
    (slugs : List Str) (qtitles : List Str)
    (hexq : ∀ k q, dictGet exq k = some q → q.organization_id = target) :
    ∀ (lst : List ParsedQuestion) (counts : List (Str × Nat)),
      (∀ q ∈ lst, ∀ e ∈ q.errors,
        e = S "Question prompt is required." ∨
        e = S "Category name is required for each question." ∨
        e = S "Provide at least two options." ∨
        e = S "Select a correct option.") →
      ∀ rec ∈ previewQuestionsLoop target exq slugs qtitles lst counts,
        (¬ S "Question belongs to another organization." ∈ rec.errors) ∧
        (rec.action = S "update" →
          ∃ q, dictGet exq (pyLower (pyStrip rec.prompt)) = some q) := by
  intro lst
  induction lst with
  | nil => intro counts _ rec hrec; simp [previewQuestionsLoop] at hrec
  | cons question rest ih =>
    intro counts herr rec hrec
    have hq := herr question (List.mem_cons_self question rest)
    simp only [previewQuestionsLoop] at hrec
    rcases List.mem_cons.mp hrec with rfl | hmem
    · dsimp only
      have hkey : pyLower (if question.prompt = [] then [] else pyStrip question.prompt)
          = pyLower (pyStrip question.prompt) := by
        by_cases ht : question.prompt = []
        · rw [if_pos ht, ht]
          rfl
        · rw [if_neg ht]
      constructor
      · intro hbad
        rcases List.mem_append.mp hbad with h | h
        · rcases List.mem_append.mp h with h2 | h2
          · rcases List.mem_append.mp h2 with h3 | h3
            · by_cases ht :
                pyLower (if question.prompt = [] then [] else pyStrip question.prompt) = []
              · rw [if_neg (not_not_intro ht)] at h3
                rcases List.mem_append.mp h3 with h4 | h4
                · rcases hq _ h4 with h5 | h5 | h5 | h5 <;> exact absurd h5 (by decide)
                · exact absurd (List.mem_singleton.mp h4) (by decide)
              · rw [if_pos ht] at h3
                rcases List.mem_append.mp h3 with h4 | h4
                · rcases hq _ h4 with h5 | h5 | h5 | h5 <;> exact absurd h5 (by decide)
                · by_cases hdup :
                    (dictGet counts (pyLower (if question.prompt = [] then [] else pyStrip question.prompt))).getD 0 + 1 > 1
                  · rw [if_pos hdup] at h4
                    exact absurd (List.mem_singleton.mp h4) (by decide)
                  · rw [if_neg hdup] at h4
                    simp at h4
            · by_cases hcat :
                ¬ slugs.contains (if question.category_name = [] then [] else slugify question.category_name) = true
              · rw [if_pos hcat] at h3
                have heqm := List.mem_singleton.mp h3
                rw [List.append_assoc] at heqm
                refine absurd heqm.symm (append_take_ne _ 1 ?_ ?_) <;> decide
              · rw [if_neg hcat] at h3
                simp at h3
          · obtain ⟨title, _, hp⟩ := List.mem_filterMap.mp h2
            split at hp
            · have heqm := Option.some_inj.mp hp
              rw [List.append_assoc] at heqm
              refine absurd heqm (append_take_ne _ 3 ?_ ?_) <;> decide
            · simp at hp
        · by_cases ht :
            pyLower (if question.prompt = [] then [] else pyStrip question.prompt) = []
          · rw [if_neg (not_not_intro ht)] at h
            simp at h
          · rw [if_pos ht] at h
            cases hval : dictGet exq (pyLower (if question.prompt = [] then [] else pyStrip question.prompt)) with
            | none =>
              rw [hval] at h
              simp at h
            | some q =>
              rw [hval] at h
              split at h
              · rename_i q2 heq2
                obtain rfl : q = q2 := Option.some_inj.mp heq2
                split at h
                · rename_i hcond
                  exact hcond (Or.inl (hexq _ _ hval).symm)
                · simp at h
              · simp at h
      · intro hupd
        by_cases ht : pyLower (if question.prompt = [] then [] else pyStrip question.prompt) = []
        · rw [if_neg (not_not_intro ht)] at hupd
          simp only [Option.isSome_none, Bool.false_eq_true, if_false] at hupd
          exact absurd hupd (by decide)
        · rw [if_pos ht, hkey] at hupd
          cases hval : dictGet exq (pyLower (pyStrip question.prompt)) with
          | none =>
            rw [hval] at hupd
            simp only [Option.isSome_none, Bool.false_eq_true, if_false] at hupd
            exact absurd hupd (by decide)
          | some q => exact ⟨q, rfl⟩
    · exact ih _ (fun q hq2 => herr q (List.mem_cons_of_mem question hq2)) rec hmem

/-- A package the reader accepts: its relationship entries carry the
officeDocument/2006/relationships expanded name that the reader queries
(unlike the writer output, which the reader cannot resolve), and its single
sheet holds a quiz titled Alpha. -/
def C3z : ZipData :=
  .entries
    [(S "xl/workbook.xml", .xml (_build_workbook_xml [(1, S "Quizzes")])),
     (S "xl/_rels/workbook.xml.rels", .xml (.mk (S "Relationships") [] none
       [.mk _REL_QUERY_TAG
         [(S "Id", S "rId1"), (S "Target", S "worksheets/sheet1.xml")] none []])),
     (S "xl/worksheets/sheet1.xml",
       .xml (_build_sheet_xml [[some (Cell.s (S "Title"))], [some (Cell.s (S "Alpha"))]]))]

def C3store : Store := ⟨[], [], [], [⟨1, S "Alpha", none, true, some 1⟩], [], 2⟩

def C3pv : BulkImportPreviewOut :=
  ⟨[], [⟨some 2, S "Alpha", none, true, [], S "create", []⟩], [],
   [S "Categories sheet not found. Expected a sheet named \x27Categories\x27.",
    S "Questions sheet not found. Expected a sheet named \x27Questions\x27."]⟩

/-- **C3** counterexample: a quiz titled "Alpha" is persisted under
organization 1, the preview runs with target scope organization 2, and the
uploaded workbook declares a quiz with the same natural key "alpha".  The
claim demands the error "belongs to another organization" on that record;
in fact the scope-filtered quiz map never surfaces the foreign record, so
the preview returns the record with an empty error list and action
"create". -/
theorem C3_counterexample :
    (preview_bulk_import C3z (some 2) (Session.start C3store)).1 = .ok C3pv ∧
    (∃ q ∈ (Session.start C3store).pending.quizzes,
        ¬ q.organization_id = some 2 ∧ pyLower (pyStrip q.title) = S "alpha") ∧
    (∀ rec ∈ C3pv.quizzes,
        pyLower (pyStrip rec.title) = S "alpha" ∧ rec.errors = [] ∧
          rec.action = S "create") := by
  decide

/-- **C3** (corrected): the cross-tenant branch of the preview is dead code.
Because `_fetch_quiz_map` and `_fetch_question_map` filter by the target
organization before building the natural-key maps, a persisted record of
another organization is invisible to the preview: the error
"Quiz/Question belongs to another organization." never appears in any
record's error list, and every record classified `update` resolves to a
persisted record of the request's own target scope. -/
theorem C3_cross_tenant_invisible (z : ZipData) (target : Scope) (s : Session)
    (pv : BulkImportPreviewOut)
    (h : (preview_bulk_import z target s).1 = .ok pv) :
    (∀ rec ∈ pv.quizzes,
        (¬ S "Quiz belongs to another organization." ∈ rec.errors) ∧
        (rec.action = S "update" → ∃ q ∈ s.pending.quizzes,
          q.organization_id = target ∧
          pyLower (pyStrip q.title) = pyLower (pyStrip rec.title))) ∧
    (∀ rec ∈ pv.questions,
        (¬ S "Question belongs to another organization." ∈ rec.errors) ∧
        (rec.action = S "update" → ∃ q ∈ s.pending.questions,
          q.organization_id = target ∧
          pyLower (pyStrip q.prompt) = pyLower (pyStrip rec.prompt))) := by
  unfold preview_bulk_import at h
  cases hp : parse_workbook z with
  | error msg =>
    rw [hp] at h
    simp at h
  | ok parsed =>
    rw [hp] at h
    dsimp only at h
    obtain rfl := Except.ok.inj h
    dsimp only
    constructor
    · intro rec hrec
      have hsp := previewQuizzesLoop_spec target (_fetch_quiz_map s target) _
        (fun k q hk => (fetch_quiz_map_spec hk).2.1) parsed.quizzes []
        (parse_workbook_quiz_errors hp) rec hrec
      refine ⟨hsp.1, fun hupd => ?_⟩
      obtain ⟨q, hq⟩ := hsp.2 hupd
      obtain ⟨hmem, horg, hkey2⟩ := fetch_quiz_map_spec hq
      exact ⟨q, hmem, horg, hkey2⟩
    · intro rec hrec
      have hsp := previewQuestionsLoop_spec target (_fetch_question_map s target none) _ _
        (fun k q hk => (fetch_question_map_spec hk).2.1) parsed.questions []
        (parse_workbook_question_errors hp) rec hrec
      refine ⟨hsp.1, fun hupd => ?_⟩
      obtain ⟨q, hq⟩ := hsp.2 hupd
      obtain ⟨hmem, horg, hkey2⟩ := fetch_question_map_spec hq
      exact ⟨q, hmem, horg, hkey2⟩

/-- Witness for C3: the corrected statement applied to the concrete
cross-tenant package of the counterexample. -/
theorem C3_cross_tenant_invisible_witness :
    (preview_bulk_import C3z (some 2) (Session.start C3store)).1 = .ok C3pv ∧
    ((∀ rec ∈ C3pv.quizzes,
        (¬ S "Quiz belongs to another organization." ∈ rec.errors) ∧
        (rec.action = S "update" → ∃ q ∈ (Session.start C3store).pending.quizzes,
          q.organization_id = some 2 ∧
          pyLower (pyStrip q.title) = pyLower (pyStrip rec.title))) ∧
     (∀ rec ∈ C3pv.questions,
        (¬ S "Question belongs to another organization." ∈ rec.errors) ∧
        (rec.action = S "update" → ∃ q ∈ (Session.start C3store).pending.questions,
          q.organization_id = some 2 ∧
          pyLower (pyStrip q.prompt) = pyLower (pyStrip rec.prompt)))) :=
  ⟨by decide,
   C3_cross_tenant_invisible C3z (some 2) (Session.start C3store) C3pv (by decide)⟩

/-! ## Link-row replacement on commit (C6) -/

theorem dropWhile_head_false {α : Type} (p : α → Bool) :
    ∀ (l : List α) {c : α} {rest : List α}, l.dropWhile p = c :: rest → p c = false := by
  intro l
  induction l with
  | nil => intro c rest h; simp [List.dropWhile] at h
  | cons a l ih =>
    intro c rest h
    rw [List.dropWhile_cons] at h
    split at h
    · exact ih h
    · obtain ⟨rfl, -⟩ := List.cons.inj h
      rename_i ha
      simpa using ha

theorem dropWhile_idem {α : Type} (p : α → Bool) (l : List α) :
    (l.dropWhile p).dropWhile p = l.dropWhile p := by
  cases h : l.dropWhile p with
  | nil => rfl
  | cons c rest => simp [List.dropWhile_cons, dropWhile_head_false p l h]

theorem pyStrip_head_not_ws (s : Str) {c : Char} {rest : Str}
    (h : pyStrip s = c :: rest) : Char.isWhitespace c = false := by
  have base := List.takeWhile_append_dropWhile Char.isWhitespace
    (s.dropWhile Char.isWhitespace).reverse
  have hu := congrArg List.reverse base
  rw [List.reverse_append, List.reverse_reverse] at hu
  have hps : pyStrip s =
      (List.dropWhile Char.isWhitespace (s.dropWhile Char.isWhitespace).reverse).reverse := rfl
  rw [← hps, h] at hu
  exact dropWhile_head_false Char.isWhitespace s hu.symm

theorem pyStrip_idem (s : Str) : pyStrip (pyStrip s) = pyStrip s := by
  have h1 : (pyStrip s).dropWhile Char.isWhitespace = pyStrip s := by
    cases h : pyStrip s with
    | nil => rfl
    | cons c rest => simp [List.dropWhile_cons, pyStrip_head_not_ws s h]
  show (((pyStrip s).dropWhile Char.isWhitespace).reverse.dropWhile Char.isWhitespace).reverse
      = pyStrip s
  rw [h1]
  have h2 : (pyStrip s).reverse =
      List.dropWhile Char.isWhitespace (s.dropWhile Char.isWhitespace).reverse := by
    show (List.dropWhile Char.isWhitespace
      (s.dropWhile Char.isWhitespace).reverse).reverse.reverse = _
    rw [List.reverse_reverse]
  rw [h2, dropWhile_idem, ← h2, List.reverse_reverse]

theorem filter_not_filter (l : List QuizQuestion) (b : Nat) :
    (l.filter (fun x => ¬ x.quiz_id = b)).filter (fun x => x.quiz_id = b) = [] := by
  induction l with
  | nil => rfl
  | cons x l ih =>
    rw [List.filter_cons]
    by_cases h : x.quiz_id = b
    · rw [if_neg (by simp [h])]
      exact ih
    · rw [if_pos (by simp [h]), List.filter_cons, if_neg (by simp [h])]
      exact ih

theorem filter_filter_of_ne (l : List QuizQuestion) (a b : Nat) (hne : ¬ a = b) :
    (l.filter (fun x => ¬ x.quiz_id = b)).filter (fun x => x.quiz_id = a)
      = l.filter (fun x => x.quiz_id = a) := by
  induction l with
  | nil => rfl
  | cons x l ih =>
    rw [List.filter_cons]
    by_cases h : x.quiz_id = b
    · have h2 : ¬ x.quiz_id = a := fun hh => hne (hh.symm.trans h)
      rw [if_neg (by simp [h]), ih, List.filter_cons, if_neg (by simp [h2])]
    · rw [if_pos (by simp [h]), List.filter_cons, List.filter_cons, ih]

theorem quizLinksLoop_ok (lookup : List (Str × Question)) (title : Str) (qid : Nat) :
    ∀ (prompts : List Str) (pos : Nat) (st st' : Store),
      quizLinksLoop lookup title qid prompts pos st = .ok st' →
      ∃ links : List QuizQuestion,
        st'.categories = st.categories ∧ st'.questions = st.questions ∧
        st'.options = st.options ∧ st'.quizzes = st.quizzes ∧
        st'.nextId = st.nextId ∧
        st'.quiz_questions = st.quiz_questions ++ links ∧
        (∀ l ∈ links, l.quiz_id = qid) ∧
        List.Forall₂
          (fun (l : QuizQuestion) (pi : Nat × Str) =>
            l.position = pi.1 ∧
            ∃ qobj, dictGet lookup (pyLower (pyStrip pi.2)) = some qobj ∧
              l.question_id = qobj.id)
          links (prompts.enumFrom pos) := by
  intro prompts
  induction prompts with
  | nil =>
    intro pos st st' h
    obtain rfl := Except.ok.inj h
    exact ⟨[], rfl, rfl, rfl, rfl, rfl, (List.append_nil _).symm,
      fun l hl => absurd hl (by simp), List.Forall₂.nil⟩
  | cons p rest ih =>
    intro pos st st' h
    simp only [quizLinksLoop] at h
    cases hval : dictGet lookup (pyLower (pyStrip p)) with
    | none =>
      rw [hval] at h
      simp at h
    | some qobj =>
      rw [hval] at h
      obtain ⟨links, hc, hq, ho, hz, hn, hqq, hall, hfa⟩ :=
        ih (pos + 1) (st.addQuizQuestion ⟨qid, qobj.id, pos⟩) st' h
      refine ⟨⟨qid, qobj.id, pos⟩ :: links, hc, hq, ho, hz, hn, ?_, ?_, ?_⟩
      · rw [hqq]
        show (st.quiz_questions ++ [⟨qid, qobj.id, pos⟩]) ++ links = _
        rw [List.append_assoc]
        rfl
      · intro l hl
        rcases List.mem_cons.mp hl with rfl | hl
        · rfl
        · exact hall l hl
      · rw [List.enumFrom_cons]
        exact List.Forall₂.cons ⟨rfl, qobj, hval, rfl⟩ hfa

theorem ensureUniqueQuizzesLoop_ok :
    ∀ (qs : List BulkQuizPayload) (seen : List Str),
      ensureUniqueQuizzesLoop seen qs = .ok () →
      ((qs.map (fun q => pyLower (pyStrip q.title))).Nodup ∧
       ∀ q ∈ qs, ¬ seen.contains (pyLower (pyStrip q.title)) = true) := by
  intro qs
  induction qs with
  | nil =>
    intro seen h
    exact ⟨List.nodup_nil, fun q hq => absurd hq (by simp)⟩
  | cons q rest ih =>
    intro seen h
    simp only [ensureUniqueQuizzesLoop] at h
    split at h
    · simp at h
    · split at h
      · simp at h
      · obtain ⟨hnd, hseen⟩ := ih _ h
        rename_i htitle hcontains
        constructor
        · rw [List.map_cons, List.nodup_cons]
          refine ⟨?_, hnd⟩
          intro hmem
          obtain ⟨q2, hq2, hkey⟩ := List.mem_map.mp hmem
          apply hseen q2 hq2
          rw [hkey]
          simp [List.contains_cons]
        · intro q2 hq2
          rcases List.mem_cons.mp hq2 with rfl | hmem
          · exact hcontains
          · intro hc
            refine hseen q2 hmem ?_
            simp only [List.contains_cons]
            simp
            right
            simpa using hc

theorem commitCategoriesLoop_fields (target : Scope) :
    ∀ (cats : List BulkCategoryPayload) (st : Store) (m : List (Str × Category))
      (res : BulkImportResult),
      (commitCategoriesLoop target cats st m res).1.questions = st.questions ∧
      (commitCategoriesLoop target cats st m res).1.quizzes = st.quizzes ∧
      (commitCategoriesLoop target cats st m res).1.quiz_questions = st.quiz_questions ∧
      st.nextId ≤ (commitCategoriesLoop target cats st m res).1.nextId := by
  intro cats
  induction cats with
  | nil =>
    intro st m res
    exact ⟨rfl, rfl, rfl, Nat.le_refl _⟩
  | cons c rest ih =>
    intro st m res
    simp only [commitCategoriesLoop]
    cases hv : dictGet m (slugify c.name) with
    | some existing => exact ih _ _ _
    | none =>
      dsimp only
      have h4 := (ih ((st.addCategory (fun i =>
        { id := i, name := pyStrip c.name, slug := slugify c.name,
          description := _normalize_optional c.description,
          icon := _normalize_optional c.icon, organization_id := target })).1)
        (dictInsert m (slugify c.name) ((st.addCategory (fun i =>
        { id := i, name := pyStrip c.name, slug := slugify c.name,
          description := _normalize_optional c.description,
          icon := _normalize_optional c.icon, organization_id := target })).2))
        { res with categories_created := res.categories_created + 1 }).2.2.2
      exact ⟨(ih _ _ _).1, (ih _ _ _).2.1, (ih _ _ _).2.2.1,
        Nat.le_trans (Nat.le_succ _) h4⟩

theorem foldl_addOption_fields (qid2 : Nat) (opts : List BulkQuestionOption) :
    ∀ st : Store,
      (opts.foldl (fun st o => st.addOption ⟨qid2, pyStrip o.text, o.is_correct⟩) st).questions
        = st.questions ∧
      (opts.foldl (fun st o => st.addOption ⟨qid2, pyStrip o.text, o.is_correct⟩) st).quizzes
        = st.quizzes ∧
      (opts.foldl (fun st o => st.addOption ⟨qid2, pyStrip o.text, o.is_correct⟩) st).quiz_questions
        = st.quiz_questions ∧
      (opts.foldl (fun st o => st.addOption ⟨qid2, pyStrip o.text, o.is_correct⟩) st).nextId
        = st.nextId := by
  induction opts with
  | nil =>
    intro st
    exact ⟨rfl, rfl, rfl, rfl⟩
  | cons o rest ih =>
    intro st
    simp only [List.foldl_cons]
    exact ih _

theorem map_update_ids (l : List Question) (exid : Nat) (upd : Question)
    (hid : upd.id = exid) :
    (l.map (fun q => if q.id = exid then upd else q)).map Question.id
      = l.map Question.id := by
  induction l with
  | nil => rfl
  | cons a l ih =>
    simp only [List.map_cons, ih]
    by_cases hc : a.id = exid
    · rw [if_pos hc, hid, hc]
    · rw [if_neg hc]

theorem mem_map_update_self (l : List Question) (exid : Nat) (upd : Question)
    (ex : Question) (hmem : ex ∈ l) (hex : ex.id = exid) :
    upd ∈ l.map (fun q => if q.id = exid then upd else q) :=
  List.mem_map.mpr ⟨ex, hmem, by
    show (if ex.id = exid then upd else ex) = upd
    rw [if_pos hex]⟩

theorem mem_map_update_other (l : List Question) (exid : Nat) (upd : Question)
    (q : Question) (hmem : q ∈ l) (hne : ¬ q.id = exid) :
    q ∈ l.map (fun q2 => if q2.id = exid then upd else q2) :=
  List.mem_map.mpr ⟨q, hmem, by
    show (if q.id = exid then upd else q) = q
    rw [if_neg hne]⟩

theorem commitQuestionsLoop_ok_spec (target : Scope) (catlookup : List (Str × Category)) :
    ∀ (qs : List BulkQuestionPayload) (st : Store) (lookup : List (Str × Question))
      (res : BulkImportResult) (out : Store × List (Str × Question) × BulkImportResult),
      commitQuestionsLoop target catlookup qs st lookup res = .ok out →
      (∀ k q, dictGet lookup k = some q →
        q ∈ st.questions ∧ pyLower (pyStrip q.prompt) = k) →
      (st.questions.map Question.id).Nodup →
      (∀ q ∈ st.questions, q.id < st.nextId) →
      ((∀ k q, dictGet out.2.1 k = some q →
          q ∈ out.1.questions ∧ pyLower (pyStrip q.prompt) = k) ∧
       out.1.quizzes = st.quizzes ∧ out.1.quiz_questions = st.quiz_questions ∧
       st.nextId ≤ out.1.nextId) := by
  intro qs
  induction qs with
  | nil =>
    intro st lookup res out h hin hnd hlt
    obtain rfl := Except.ok.inj h
    exact ⟨hin, rfl, rfl, Nat.le_refl _⟩
  | cons question rest ih =>
    intro st lookup res out h hin hnd hlt
    simp only [commitQuestionsLoop] at h
    cases hcat : dictGet catlookup (slugify question.category_name) with
    | none =>
      rw [hcat] at h
      simp at h
    | some category =>
      rw [hcat] at h
      cases hq : dictGet lookup (pyLower (pyStrip question.prompt)) with
      | none =>
        rw [hq] at h
        obtain ⟨hout, hz, hqq, hn⟩ := ih _ _ _ _ h
          (by
            intro k q hkq
            rw [dictGet_dictInsert] at hkq
            by_cases hk : k = pyLower (pyStrip question.prompt)
            · rw [if_pos hk] at hkq
              obtain rfl := Option.some_inj.mp hkq
              constructor
              · rw [(foldl_addOption_fields _ _ _).1]
                exact List.mem_append_right _ (List.mem_singleton_self _)
              · rw [hk]
                show pyLower (pyStrip (pyStrip question.prompt)) = _
                rw [pyStrip_idem]
            · rw [if_neg hk] at hkq
              obtain ⟨hmem, hkey⟩ := hin k q hkq
              refine ⟨?_, hkey⟩
              rw [(foldl_addOption_fields _ _ _).1]
              exact List.mem_append_left _ hmem)
          (by
            rw [(foldl_addOption_fields _ _ _).1]
            show ((st.questions ++ [_]).map Question.id).Nodup
            rw [List.map_append, List.nodup_append]
            refine ⟨hnd, List.nodup_singleton _, ?_⟩
            intro a ha hb
            obtain ⟨qrow, hqrow, rfl⟩ := List.mem_map.mp ha
            have heq : qrow.id = st.nextId := by simpa using hb
            exact absurd (hlt qrow hqrow) (by rw [heq]; exact Nat.lt_irrefl _))
          (by
            intro q hq2
            rw [(foldl_addOption_fields _ _ _).1] at hq2
            rw [(foldl_addOption_fields _ _ _).2.2.2]
            rcases List.mem_append.mp hq2 with hmem | hmem
            · exact Nat.lt_trans (hlt q hmem) (Nat.lt_succ_self _)
            · rw [List.mem_singleton.mp hmem]
              exact Nat.lt_succ_self _)
        rw [(foldl_addOption_fields _ _ _).2.1] at hz
        rw [(foldl_addOption_fields _ _ _).2.2.1] at hqq
        rw [(foldl_addOption_fields _ _ _).2.2.2] at hn
        exact ⟨hout, hz, hqq, Nat.le_trans (Nat.le_succ _) hn⟩
      | some existing_question =>
        rw [hq] at h
        obtain ⟨hexmem, hexkey⟩ := hin _ _ hq
        obtain ⟨hout, hz, hqq, hn⟩ := ih _ _ _ _ h
          (by
            intro k q hkq
            rw [dictGet_dictInsert] at hkq
            by_cases hk : k = pyLower (pyStrip question.prompt)
            · rw [if_pos hk] at hkq
              obtain rfl := Option.some_inj.mp hkq
              constructor
              · rw [(foldl_addOption_fields _ _ _).1]
                exact mem_map_update_self st.questions existing_question.id
                  { existing_question with
                    prompt := pyStrip question.prompt,
                    explanation := _normalize_optional question.explanation,
                    subject := _normalize_optional question.subject,
                    difficulty := _normalize_optional question.difficulty,
                    is_active := question.is_active,
                    category_id := category.id,
                    organization_id := target }
                  existing_question hexmem rfl
              · rw [hk]
                show pyLower (pyStrip (pyStrip question.prompt)) = _
                rw [pyStrip_idem]
            · rw [if_neg hk] at hkq
              obtain ⟨hmem, hkey⟩ := hin k q hkq
              have hne : ¬ q.id = existing_question.id := by
                intro hid
                have hqe := List.inj_on_of_nodup_map hnd hmem hexmem hid
                rw [hqe] at hkey
                exact hk (hkey.symm.trans hexkey)
              refine ⟨?_, hkey⟩
              rw [(foldl_addOption_fields _ _ _).1]
              exact mem_map_update_other st.questions existing_question.id
                { existing_question with
                  prompt := pyStrip question.prompt,
                  explanation := _normalize_optional question.explanation,
                  subject := _normalize_optional question.subject,
                  difficulty := _normalize_optional question.difficulty,
                  is_active := question.is_active,
                  category_id := category.id,
                  organization_id := target }
                q hmem hne)
          (by
            rw [(foldl_addOption_fields _ _ _).1]
            have hX := map_update_ids st.questions existing_question.id
              { existing_question with
                prompt := pyStrip question.prompt,
                explanation := _normalize_optional question.explanation,
                subject := _normalize_optional question.subject,
                difficulty := _normalize_optional question.difficulty,
                is_active := question.is_active,
                category_id := category.id,
                organization_id := target } rfl
            rw [← hX] at hnd
            exact hnd)
          (by
            intro q hq2
            rw [(foldl_addOption_fields _ _ _).1] at hq2
            rw [(foldl_addOption_fields _ _ _).2.2.2]
            show q.id < st.nextId
            obtain ⟨qrow, hqrow, hfq⟩ := List.mem_map.mp hq2
            dsimp only at hfq
            by_cases hc : qrow.id = existing_question.id
            · rw [if_pos hc] at hfq
              rw [← hfq]
              show existing_question.id < st.nextId
              rw [← hc]
              exact hlt qrow hqrow
            · rw [if_neg hc] at hfq
              rw [← hfq]
              exact hlt qrow hqrow)
        rw [(foldl_addOption_fields _ _ _).2.1] at hz
        rw [(foldl_addOption_fields _ _ _).2.2.1] at hqq
        rw [(foldl_addOption_fields _ _ _).2.2.2] at hn
        exact ⟨hout, hz, hqq, hn⟩

theorem mem_map_updateQuiz_other (l : List Quiz) (exid : Nat) (f : Quiz → Quiz)
    (q : Quiz) (hmem : q ∈ l) (hne : ¬ q.id = exid) :
    q ∈ l.map (fun q2 => if q2.id = exid then f q2 else q2) :=
  List.mem_map.mpr ⟨q, hmem, by
    show (if q.id = exid then f q else q) = q
    rw [if_neg hne]⟩

theorem commitQuizzesLoop_frame (target : Scope) (lookup : List (Str × Question))
    (reqs : List (Str × List Str)) :
    ∀ (quizzes : List BulkQuizPayload) (st : Store) (m : List (Str × Quiz))
      (res : BulkImportResult) (st' : Store) (res' : BulkImportResult) (qid : Nat),
      commitQuizzesLoop target lookup reqs quizzes st m res = .ok (st', res') →
      (∀ qz ∈ quizzes, ∀ ex, dictGet m (pyLower (pyStrip qz.title)) = some ex →
        ¬ ex.id = qid) →
      qid < st.nextId →
      (st'.quiz_questions.filter (fun l => l.quiz_id = qid)
         = st.quiz_questions.filter (fun l => l.quiz_id = qid) ∧
       (∀ q ∈ st.quizzes, q.id = qid → q ∈ st'.quizzes) ∧
       st'.questions = st.questions) := by
  intro quizzes
  induction quizzes with
  | nil =>
    intro st m res st' res' qid h havoid hlt
    obtain ⟨rfl, rfl⟩ := Prod.mk.inj (Except.ok.inj h)
    exact ⟨rfl, fun q hq _ => hq, rfl⟩
  | cons qz rest ih =>
    intro st m res st' res' qid h havoid hlt
    simp only [commitQuizzesLoop] at h
    cases hup : dictGet m (pyLower (pyStrip qz.title)) with
    | none =>
      rw [hup] at h
      dsimp only at h
      split at h
      · simp at h
      · rename_i st2 hlk
        obtain ⟨lks, hcat2, hqs, ho2, hzs, hn2, hqq2, hall2, hfa2⟩ :=
          quizLinksLoop_ok lookup qz.title _ _ _ _ _ hlk
        obtain ⟨f1, f2, f3⟩ := ih _ _ _ _ _ qid h
          (by
            intro qz2 hqz2 ex hex
            rw [dictGet_dictInsert] at hex
            by_cases hk : pyLower (pyStrip qz2.title) = pyLower (pyStrip qz.title)
            · rw [if_pos hk] at hex
              obtain rfl := Option.some_inj.mp hex
              intro hid
              have hid2 : st.nextId = qid := hid
              rw [← hid2] at hlt
              exact absurd hlt (Nat.lt_irrefl _)
            · rw [if_neg hk] at hex
              exact havoid qz2 (List.mem_cons_of_mem _ hqz2) ex hex)
          (by
            rw [hn2]
            show qid < st.nextId + 1
            exact Nat.lt_trans hlt (Nat.lt_succ_self _))
        refine ⟨?_, ?_, ?_⟩
        · rw [f1, hqq2, List.filter_append]
          have hlksnil : lks.filter (fun l => l.quiz_id = qid) = [] := by
            rw [List.filter_eq_nil_iff]
            intro l hl
            rw [hall2 l hl]
            simp
            exact fun hh => Nat.ne_of_lt hlt hh.symm
          rw [hlksnil, List.append_nil]
          exact filter_filter_of_ne st.quiz_questions qid _
            (fun hh => Nat.ne_of_lt hlt hh)
        · intro q hq hqid
          refine f2 q ?_ hqid
          rw [hzs]
          exact List.mem_append_left _ hq
        · rw [f3, hqs]
          rfl
    | some existing_quiz =>
      rw [hup] at h
      dsimp only at h
      split at h
      · simp at h
      · rename_i st2 hlk
        have hneex : ¬ existing_quiz.id = qid :=
          havoid qz (List.mem_cons_self _ _) existing_quiz hup
        obtain ⟨lks, hcat2, hqs, ho2, hzs, hn2, hqq2, hall2, hfa2⟩ :=
          quizLinksLoop_ok lookup qz.title _ _ _ _ _ hlk
        obtain ⟨f1, f2, f3⟩ := ih _ _ _ _ _ qid h
          (by
            intro qz2 hqz2 ex hex
            exact havoid qz2 (List.mem_cons_of_mem _ hqz2) ex hex)
          (by
            rw [hn2]
            show qid < st.nextId
            exact hlt)
        refine ⟨?_, ?_, ?_⟩
        · rw [f1, hqq2, List.filter_append]
          have hlksnil : lks.filter (fun l => l.quiz_id = qid) = [] := by
            rw [List.filter_eq_nil_iff]
            intro l hl
            rw [hall2 l hl]
            simp
            exact fun hh => hneex hh
          rw [hlksnil, List.append_nil]
          exact filter_filter_of_ne st.quiz_questions qid _
            (fun hh => hneex hh.symm)
        · intro q hq hqid
          refine f2 q ?_ hqid
          rw [hzs]
          refine mem_map_updateQuiz_other st.quizzes existing_quiz.id _ q hq ?_
          intro hh
          rw [hqid] at hh
          exact hneex hh.symm
        · rw [f3, hqs]
          rfl

theorem mem_map_updateQuiz_self (l : List Quiz) (exid : Nat) (f : Quiz → Quiz)
    (ex : Quiz) (hmem : ex ∈ l) (hex : ex.id = exid) :
    f ex ∈ l.map (fun q2 => if q2.id = exid then f q2 else q2) :=
  List.mem_map.mpr ⟨ex, hmem, by
    show (if ex.id = exid then f ex else ex) = f ex
    rw [if_pos hex]⟩

theorem map_updateQuiz_ids (l : List Quiz) (exid : Nat) (f : Quiz → Quiz)
    (hid : ∀ q, (f q).id = q.id) :
    (l.map (fun q2 => if q2.id = exid then f q2 else q2)).map Quiz.id
      = l.map Quiz.id := by
  induction l with
  | nil => rfl
  | cons a l ih =>
    simp only [List.map_cons, ih]
    by_cases hc : a.id = exid
    · rw [if_pos hc, hid]
    · rw [if_neg hc]

theorem filter_qq_shape (stq : List QuizQuestion) (b : Nat) (lks : List QuizQuestion)
    (hall : ∀ l ∈ lks, l.quiz_id = b) :
    ((stq.filter (fun l => ¬ l.quiz_id = b)) ++ lks).filter
      (fun l => l.quiz_id = b) = lks := by
  rw [List.filter_append, filter_not_filter, List.nil_append, List.filter_eq_self]
  intro a ha
  simp [hall a ha]

theorem commitQuizzesLoop_links (target : Scope) (lookup : List (Str × Question))
    (reqs : List (Str × List Str)) :
    ∀ (quizzes : List BulkQuizPayload) (st : Store) (m : List (Str × Quiz))
      (res : BulkImportResult) (st' : Store) (res' : BulkImportResult),
      commitQuizzesLoop target lookup reqs quizzes st m res = .ok (st', res') →
      (quizzes.map (fun q => pyLower (pyStrip q.title))).Nodup →
      (∀ k q, dictGet m k = some q →
        ∃ qrow ∈ st.quizzes, qrow.id = q.id ∧ pyLower (pyStrip qrow.title) = k) →
      (st.quizzes.map Quiz.id).Nodup →
      (∀ q ∈ st.quizzes, q.id < st.nextId) →
      (∀ k q, dictGet lookup k = some q →
        q ∈ st.questions ∧ pyLower (pyStrip q.prompt) = k) →
      ∀ qz ∈ quizzes, ∃ qid,
        (∃ qrow ∈ st'.quizzes, qrow.id = qid ∧
          pyLower (pyStrip qrow.title) = pyLower (pyStrip qz.title)) ∧
        List.Forall₂
          (fun (l : QuizQuestion) (pi : Nat × Str) =>
            l.position = pi.1 ∧ ∃ qrow ∈ st'.questions,
              l.question_id = qrow.id ∧
              pyLower (pyStrip qrow.prompt) = pyLower (pyStrip pi.2))
          (st'.quiz_questions.filter (fun l => l.quiz_id = qid))
          ((_dedupe_preserve_order (qz.question_prompts ++
            (dictGet reqs (pyLower (pyStrip qz.title))).getD [])).enumFrom 1) := by
  intro quizzes
  induction quizzes with
  | nil =>
    intro st m res st' res' h hkeys hm hids hltq hlkinv qz hqz
    exact absurd hqz (by simp)
  | cons qz rest ih =>
    intro st m res st' res' h hkeys hm hids hltq hlkinv
    simp only [commitQuizzesLoop] at h
    cases hup : dictGet m (pyLower (pyStrip qz.title)) with
    | none =>
      rw [hup] at h
      dsimp only at h
      split at h
      · simp at h
      · rename_i st2 hlk
        obtain ⟨lks, hcat2, hqs, ho2, hzs, hn2, hqq2, hall2, hfa2⟩ :=
          quizLinksLoop_ok lookup qz.title _ _ _ _ _ hlk
        obtain ⟨f1, f2, f3⟩ := commitQuizzesLoop_frame target lookup reqs rest
          st2 _ _ st' res' st.nextId h
          (by
            intro qz2 hqz2 ex hex
            rw [dictGet_dictInsert] at hex
            by_cases hk : pyLower (pyStrip qz2.title) = pyLower (pyStrip qz.title)
            · exfalso
              rw [List.map_cons, List.nodup_cons] at hkeys
              exact hkeys.1 (List.mem_map.mpr ⟨qz2, hqz2, hk⟩)
            · rw [if_neg hk] at hex
              obtain ⟨row, hrmem, hrid, hrkey⟩ := hm _ _ hex
              intro hid
              rw [← hrid] at hid
              exact Nat.ne_of_lt (hltq row hrmem) hid)
          (by
            rw [hn2]
            show st.nextId < st.nextId + 1
            exact Nat.lt_succ_self _)
        intro qz0 hqz0
        rcases List.mem_cons.mp hqz0 with rfl | hmem
        · refine ⟨st.nextId, ⟨(st.addQuiz (fun i =>
            { id := i, title := pyStrip qz0.title,
              description := _normalize_optional qz0.description,
              is_active := qz0.is_active, organization_id := target })).2,
              ?_, rfl, ?_⟩, ?_⟩
          · refine f2 _ ?_ rfl
            rw [hzs]
            exact List.mem_append_right _ (List.mem_singleton_self _)
          · show pyLower (pyStrip (pyStrip qz0.title)) = _
            rw [pyStrip_idem]
          · have hfilter : st'.quiz_questions.filter
                (fun l => l.quiz_id = st.nextId) = lks := by
              rw [f1, hqq2]
              exact filter_qq_shape st.quiz_questions _ lks hall2
            rw [hfilter]
            refine List.Forall₂.imp ?_ hfa2
            intro l pi hR
            obtain ⟨hpos, qobj, hlkq, hqid⟩ := hR
            obtain ⟨hqmem, hqkey⟩ := hlkinv _ _ hlkq
            refine ⟨hpos, qobj, ?_, hqid, hqkey⟩
            rw [f3, hqs]
            exact hqmem
        · refine ih _ _ _ _ _ h ?_ ?_ ?_ ?_ ?_ qz0 hmem
          · rw [List.map_cons, List.nodup_cons] at hkeys
            exact hkeys.2
          · intro k q2 hkq
            rw [dictGet_dictInsert] at hkq
            by_cases hk : k = pyLower (pyStrip qz.title)
            · rw [if_pos hk] at hkq
              obtain rfl := Option.some_inj.mp hkq
              refine ⟨_, ?_, rfl, ?_⟩
              · rw [hzs]
                exact List.mem_append_right _ (List.mem_singleton_self _)
              · rw [hk]
                show pyLower (pyStrip (pyStrip qz.title)) = _
                rw [pyStrip_idem]
            · rw [if_neg hk] at hkq
              obtain ⟨row, hrmem, hrid, hrkey⟩ := hm k q2 hkq
              refine ⟨row, ?_, hrid, hrkey⟩
              rw [hzs]
              exact List.mem_append_left _ hrmem
          · rw [hzs]
            show ((st.quizzes ++ [_]).map Quiz.id).Nodup
            rw [List.map_append, List.nodup_append]
            refine ⟨hids, List.nodup_singleton _, ?_⟩
            intro a ha hb
            obtain ⟨qrow, hqrow, rfl⟩ := List.mem_map.mp ha
            have heq : qrow.id = st.nextId := by simpa using hb
            exact absurd (hltq qrow hqrow) (by rw [heq]; exact Nat.lt_irrefl _)
          · rw [hzs, hn2]
            intro q hq
            show q.id < st.nextId + 1
            rcases List.mem_append.mp hq with hmem2 | hmem2
            · exact Nat.lt_trans (hltq q hmem2) (Nat.lt_succ_self _)
            · rw [List.mem_singleton.mp hmem2]
              exact Nat.lt_succ_self _
          · intro k q2 hkq
            obtain ⟨hqm, hqk⟩ := hlkinv k q2 hkq
            refine ⟨?_, hqk⟩
            rw [hqs]
            exact hqm
    | some existing_quiz =>
      rw [hup] at h
      dsimp only at h
      split at h
      · simp at h
      · rename_i st2 hlk
        obtain ⟨row0, hr0mem, hr0id, hr0key⟩ := hm _ _ hup
        obtain ⟨lks, hcat2, hqs, ho2, hzs, hn2, hqq2, hall2, hfa2⟩ :=
          quizLinksLoop_ok lookup qz.title _ _ _ _ _ hlk
        obtain ⟨f1, f2, f3⟩ := commitQuizzesLoop_frame target lookup reqs rest
          st2 _ _ st' res' existing_quiz.id h
          (by
            intro qz2 hqz2 ex hex
            intro hid
            obtain ⟨row, hrmem, hrid, hrkey⟩ := hm _ _ hex
            have hroweq : row = row0 :=
              List.inj_on_of_nodup_map hids hrmem hr0mem
                (by rw [hrid, hr0id]; exact hid)
            rw [List.map_cons, List.nodup_cons] at hkeys
            apply hkeys.1
            refine List.mem_map.mpr ⟨qz2, hqz2, ?_⟩
            rw [← hrkey, hroweq, hr0key])
          (by
            rw [hn2]
            show existing_quiz.id < st.nextId
            rw [← hr0id]
            exact hltq row0 hr0mem)
        intro qz0 hqz0
        rcases List.mem_cons.mp hqz0 with rfl | hmem
        · refine ⟨existing_quiz.id, ⟨{ row0 with
              description := _normalize_optional qz0.description,
              is_active := qz0.is_active,
              organization_id := target }, ?_, hr0id, hr0key⟩, ?_⟩
          · refine f2 _ ?_ hr0id
            rw [hzs]
            exact mem_map_updateQuiz_self st.quizzes existing_quiz.id _ row0 hr0mem hr0id
          · have hfilter : st'.quiz_questions.filter
                (fun l => l.quiz_id = existing_quiz.id) = lks := by
              rw [f1, hqq2]
              exact filter_qq_shape st.quiz_questions _ lks hall2
            rw [hfilter]
            refine List.Forall₂.imp ?_ hfa2
            intro l pi hR
            obtain ⟨hpos, qobj, hlkq, hqid⟩ := hR
            obtain ⟨hqmem, hqkey⟩ := hlkinv _ _ hlkq
            refine ⟨hpos, qobj, ?_, hqid, hqkey⟩
            rw [f3, hqs]
            exact hqmem
        · refine ih _ _ _ _ _ h ?_ ?_ ?_ ?_ ?_ qz0 hmem
          · rw [List.map_cons, List.nodup_cons] at hkeys
            exact hkeys.2
          · intro k q2 hkq
            obtain ⟨row, hrmem, hrid, hrkey⟩ := hm k q2 hkq
            by_cases hc : row.id = existing_quiz.id
            · refine ⟨{ row with
                  description := _normalize_optional qz.description,
                  is_active := qz.is_active,
                  organization_id := target }, ?_, hrid, hrkey⟩
              rw [hzs]
              exact mem_map_updateQuiz_self st.quizzes existing_quiz.id _ row hrmem hc
            · refine ⟨row, ?_, hrid, hrkey⟩
              rw [hzs]
              exact mem_map_updateQuiz_other st.quizzes existing_quiz.id _ row hrmem hc
          · rw [hzs]
            have hX := map_updateQuiz_ids st.quizzes existing_quiz.id
              (fun q => { q with
                description := _normalize_optional qz.description,
                is_active := qz.is_active,
                organization_id := target }) (fun q => rfl)
            rw [← hX] at hids
            exact hids
          · rw [hzs, hn2]
            intro q hq
            show q.id < st.nextId
            obtain ⟨qrow, hqrowm, hfq⟩ := List.mem_map.mp hq
            dsimp only at hfq
            by_cases hc : qrow.id = existing_quiz.id
            · rw [if_pos hc] at hfq
              rw [← hfq]
              exact hltq qrow hqrowm
            · rw [if_neg hc] at hfq
              rw [← hfq]
              exact hltq qrow hqrowm
          · intro k q2 hkq
            obtain ⟨hqm, hqk⟩ := hlkinv k q2 hkq
            refine ⟨?_, hqk⟩
            rw [hqs]
            exact hqm

/-- **C6**: after a successful commit, each payload quiz's persisted link rows
are exactly one row per entry of the merged, case-insensitively deduplicated
prompt list (its own `question_prompts` followed by the prompts collected
from questions naming it), carrying consecutive positions 1, 2, 3, … and
each referencing a persisted question whose prompt key matches the
corresponding merged prompt; no other row for that quiz survives.  The
`hWF` hypothesis is the row-id well-formedness every SQLAlchemy store
satisfies: surrogate ids are unique and below the id counter. -/
theorem C6_quiz_links_replaced (payload : BulkImportCommit) (target : Scope) (s : Session)
    (result : BulkImportResult) (s2 : Session)
    (hWF : (s.pending.quizzes.map Quiz.id).Nodup ∧
           (∀ q ∈ s.pending.quizzes, q.id < s.pending.nextId) ∧
           (s.pending.questions.map Question.id).Nodup ∧
           (∀ q ∈ s.pending.questions, q.id < s.pending.nextId))
    (h : commit_bulk_import payload target s = (.ok result, s2)) :
    ∀ qz ∈ payload.quizzes, ∃ qid,
      (∃ qrow ∈ s2.persisted.quizzes, qrow.id = qid ∧
        pyLower (pyStrip qrow.title) = pyLower (pyStrip qz.title)) ∧
      List.Forall₂
        (fun (l : QuizQuestion) (pi : Nat × Str) =>
          l.position = pi.1 ∧ ∃ qrow ∈ s2.persisted.questions,
            l.question_id = qrow.id ∧
            pyLower (pyStrip qrow.prompt) = pyLower (pyStrip pi.2))
        (s2.persisted.quiz_questions.filter (fun l => l.quiz_id = qid))
        ((_dedupe_preserve_order (qz.question_prompts ++
          (dictGet (_collect_quiz_prompts payload) (pyLower (pyStrip qz.title))).getD [])).enumFrom 1) := by
  unfold commit_bulk_import at h
  split at h
  · simp at h
  · split at h
    · simp at h
    · split at h
      · simp at h
      · split at h
        · simp at h
        · rename_i u3 huq
          dsimp only at h
          split at h
          · simp at h
          · split at h
            · simp at h
            · rename_i phase2 hq2loop
              split at h
              · simp at h
              · rename_i phase3 hq3loop
                obtain ⟨st3, res3⟩ := phase3
                obtain ⟨h1, h2⟩ := Prod.mk.inj h
                obtain rfl := h2
                obtain rfl := Except.ok.inj h1
                have hcatf := commitCategoriesLoop_fields target payload.categories
                  s.pending (_fetch_category_map s target) ⟨0, 0, 0, 0, 0, 0⟩
                have hqspec := commitQuestionsLoop_ok_spec target _ payload.questions
                  _ _ _ _ hq2loop
                  (by
                    intro k q hkq
                    obtain ⟨hqmem, horg, hqkey⟩ := fetch_question_map_spec hkq
                    refine ⟨?_, hqkey⟩
                    rw [hcatf.1]
                    exact hqmem)
                  (by
                    rw [hcatf.1]
                    exact hWF.2.2.1)
                  (by
                    intro q hq
                    rw [hcatf.1] at hq
                    exact Nat.lt_of_lt_of_le (hWF.2.2.2 q hq) hcatf.2.2.2)
                have hlinks := commitQuizzesLoop_links target phase2.2.1
                  (_collect_quiz_prompts payload) payload.quizzes phase2.1
                  (_fetch_quiz_map s target) phase2.2.2 st3 res3 hq3loop
                  (ensureUniqueQuizzesLoop_ok payload.quizzes [] huq).1
                  (by
                    intro k q hkq
                    obtain ⟨hqmem, horg, hqkey⟩ := fetch_quiz_map_spec hkq
                    refine ⟨q, ?_, rfl, hqkey⟩
                    rw [hqspec.2.1, hcatf.2.1]
                    exact hqmem)
                  (by
                    rw [hqspec.2.1, hcatf.2.1]
                    exact hWF.1)
                  (by
                    intro q hq
                    rw [hqspec.2.1, hcatf.2.1] at hq
                    refine Nat.lt_of_lt_of_le (hWF.2.1 q hq) ?_
                    exact Nat.le_trans hcatf.2.2.2 hqspec.2.2.2)
                  hqspec.1
                exact hlinks

def C6payload : BulkImportCommit :=
  ⟨[⟨S "Cat", none, none⟩],
   [⟨S "Quiz1", none, true, [S "Q1"]⟩],
   [⟨S "Q1", none, none, none, true, S "Cat", [], [⟨S "A", true⟩, ⟨S "B", false⟩]⟩]⟩

def C6store : Store := ⟨[], [], [], [], [], 1⟩

def C6final : Store :=
  ⟨[⟨1, S "Cat", S "cat", none, none, some 1⟩],
   [⟨2, S "Q1", none, none, none, true, 1, some 1⟩],
   [⟨2, S "A", true⟩, ⟨2, S "B", false⟩],
   [⟨3, S "Quiz1", none, true, some 1⟩],
   [⟨3, 2, 1⟩],
   4⟩

def C6result : BulkImportResult := ⟨1, 0, 1, 0, 1, 0⟩

/-- Witness for C6: a one-category, one-question, one-quiz payload committed
into an empty store; the quiz's single link row carries position 1 and
points at the question whose prompt matches the merged prompt list. -/
theorem C6_quiz_links_replaced_witness :
    ((C6store.quizzes.map Quiz.id).Nodup ∧
     (∀ q ∈ C6store.quizzes, q.id < C6store.nextId) ∧
     (C6store.questions.map Question.id).Nodup ∧
     (∀ q ∈ C6store.questions, q.id < C6store.nextId)) ∧
    commit_bulk_import C6payload (some 1) (Session.start C6store)
      = (.ok C6result, Session.start C6final) ∧
    (∀ qz ∈ C6payload.quizzes, ∃ qid,
      (∃ qrow ∈ (Session.start C6final).persisted.quizzes, qrow.id = qid ∧
        pyLower (pyStrip qrow.title) = pyLower (pyStrip qz.title)) ∧
      List.Forall₂
        (fun (l : QuizQuestion) (pi : Nat × Str) =>
          l.position = pi.1 ∧ ∃ qrow ∈ (Session.start C6final).persisted.questions,
            l.question_id = qrow.id ∧
            pyLower (pyStrip qrow.prompt) = pyLower (pyStrip pi.2))
        ((Session.start C6final).persisted.quiz_questions.filter
          (fun l => l.quiz_id = qid))
        ((_dedupe_preserve_order (qz.question_prompts ++
          (dictGet (_collect_quiz_prompts C6payload)
            (pyLower (pyStrip qz.title))).getD [])).enumFrom 1)) :=
  ⟨by decide, by decide,
   C6_quiz_links_replaced C6payload (some 1) (Session.start C6store)
     C6result (Session.start C6final) (by decide) (by decide)⟩

end QuizHub
